import Mathlib

/-!
# Verification of the CDO chunk-stream processor (`xplmi_cdo.c`)

This file is a shallow embedding of the Configuration Data Object (CDO)
stream processor of `src/lib/sw_services/xilplmi/src/common/xplmi_cdo.c`
(functions `XPlmi_CmdSize`, `XPlmi_SetupCmd`, `XPlmi_CdoVerifyHeader`,
`XPlmi_CdoCmdResume`, `XPlmi_CdoCmdExecute`, `XPlmi_ProcessCdo`,
`XPlmi_InitCdo`), together with theorems settling the specification
claims about it.

Modelling conventions:
* `u32` values are `Nat`; wherever a C subtraction or comparison can
  wrap around and the wrap is not excluded by a guard in the same
  function, we compute modulo `2^32` explicitly (`sub32`, `add32`).
  Where a guard in the same function rules the wrap out, plain `Nat`
  arithmetic coincides with the C and is used directly (noted inline).
* the chunk buffer (`BufPtr`/`BufLen`) is a list of words plus a
  separate length, mirroring the pointer+length pair of the C; pointer
  advancing is `List.drop`.  Reads use `List.getD _ _ 0`.
* the external collaborators that are not part of this translation unit
  (the command-handler registry behind `XPlmi_CmdExecute` /
  `XPlmi_CmdResume`, the `Xil_SMemCpy` outcome, the secure-lockdown
  predicate) are parameters collected in `CdoEnv`; the error manager
  `XPlmi_ErrMgr` and the handler invocations are recorded as events so
  that theorems can speak about the dispatched-command sequence.
  `XPlmi_SetPlmLiveStatus`, called unconditionally at the end of
  `XPlmi_ProcessCdo`, has no effect on the state modelled here.
* the scratch-buffer stitch of the C (copying the command tail to
  `NextChunkAddr - BufSize` so it becomes contiguous with the next
  chunk) is modelled by storing the copied words in `TempCmdBuf` and
  prepending them to the next chunk's buffer, which is exactly the
  address-contiguity the C arranges.
* the command-dispatch loop of `XPlmi_ProcessCdo` is a fueled recursion
  (`XPlmi_ProcessCdoLoop`); the entry point runs it with fuel equal to
  the buffer length, which suffices because every iteration consumes at
  least one word.  `none` models a run that would walk off the buffer.
-/

namespace XPlmi

/-- `2^32`, the modulus of the C `u32` arithmetic. -/
def MOD32 : Nat := 4294967296

/-- u32 addition. -/
def add32 (a b : Nat) : Nat := (a + b) % MOD32

/-- u32 subtraction (two's complement wraparound). -/
def sub32 (a b : Nat) : Nat := (a % MOD32 + (MOD32 - b % MOD32)) % MOD32

/-! ## Constants

The numeric constants come from the headers `xplmi_cdo.h` /
`xplmi_status.h`, which are not part of the sources at hand; their
values are modelled from the spec (short length field in bits [23:16]
with sentinel 255, long header of two words, fixed long-form maximum,
five-word object header whose word 1 is an identification magic, a
reserved END opcode, opaque nonzero error codes). -/

def XST_SUCCESS : Nat := 0
def XST_FAILURE : Nat := 1
/-- `XPLMI_CMD_LEN_TEMPBUF` (xplmi_cdo.c line 71): stitch threshold in words. -/
def XPLMI_CMD_LEN_TEMPBUF : Nat := 8
/-- Modelled from the spec: fixed-size object header length in words. -/
def XPLMI_CDO_HDR_LEN : Nat := 5
/-- Modelled from the spec: fixed identification constant checked in header word 1. -/
def XPLMI_CDO_HDR_IDN_WRD : Nat := 0x004F4443
/-- Modelled from the spec: the reserved END opcode word. -/
def XPLMI_CMD_END : Nat := 0x01FF
/-- Modelled from the spec: mask of the short-length field, bits [23:16] of word 0. -/
def XPLMI_CMD_LEN_MASK : Nat := 0xFF0000
/-- Modelled from the spec: shift of the short-length field. -/
def XPLMI_SHORT_CMD_LEN_SHIFT : Nat := 16
/-- Modelled from the spec: the long-form sentinel (255). -/
def XPLMI_MAX_SHORT_CMD_LEN : Nat := 255
/-- Modelled from the spec: words in the long command header. -/
def XPLMI_LONG_CMD_HDR_LEN : Nat := 2
/-- Modelled from the spec: the fixed maximum of the long payload length. -/
def XPLMI_MAX_LONG_CMD_LEN : Nat := 0xFFFDF
def XPLMI_CMD_STATE_START : Nat := 0
def XPLMI_CMD_STATE_RESUME : Nat := 1
/-- Modelled from the spec: opaque nonzero error code (`HeaderIdentificationError`). -/
def XPLMI_ERR_CDO_HDR_ID : Nat := 0x119
/-- Modelled from the spec: opaque nonzero error code (`ChecksumError`). -/
def XPLMI_ERR_CDO_CHECKSUM : Nat := 0x11A
/-- Modelled from the spec: opaque nonzero error code (`StitchCopyError`). -/
def XPLMI_ERR_MEMCPY_CMD_EXEC : Nat := 0x11B
/-- Modelled from the spec: opaque nonzero error code (`InvalidBreakLength`). -/
def XPLMI_INVALID_BREAK_LENGTH : Nat := 0x11C

/-- Modelled from the spec: `XPlmi_UpdateStatus` (xplmi_status.c, not under
src/) records and returns a nonzero composite error status; only its
nonzero-ness and the identity of the error code matter here. -/
def XPlmi_UpdateStatus (code : Nat) (_status : Nat) : Nat := code

/-! ## Data model -/

/-- The keyhole parameters sub-structure of `XPlmi_Cmd`; only the
`ExtraWords` field (extra consumed words a handler may report) is read
by this translation unit. -/
structure XPlmi_KeyHoleParams where
  ExtraWords : Nat
deriving Repr, DecidableEq

/-- The command structure `XPlmi_Cmd` (the fields read or written by
xplmi_cdo.c).  `Payload` is the borrowed in-view payload (the C stores a
pointer plus `PayloadLen`; the model stores the `PayloadLen`-word view). -/
structure XPlmi_Cmd where
  SubsystemId : Nat
  IpiMask : Nat
  CmdId : Nat
  Len : Nat
  ProcessedLen : Nat
  PayloadLen : Nat
  Payload : List Nat
  DeferredError : Bool
  ProcessedCdoLen : Nat
  BreakLength : Nat
  KeyHoleParams : XPlmi_KeyHoleParams
deriving Repr, DecidableEq

/-- The stream state `XPlmiCdo`. -/
structure XPlmiCdo where
  BufPtr : List Nat
  BufLen : Nat
  NextChunkAddr : Nat
  TempCmdBuf : List Nat
  CdoLen : Nat
  ProcessedCdoLen : Nat
  CopiedCmdLen : Nat
  CmdState : Nat
  Cmd : XPlmi_Cmd
  Cdo1stChunk : Bool
  CmdEndDetected : Bool
  DeferredError : Bool
  SubsystemId : Nat
deriving Repr, DecidableEq

/-- External collaborators: the opcode-dispatched handler entries of the
command registry (execute / resume, each mapping the command view to a
status and the mutated command structure), and the outcome of the
`Xil_SMemCpy` scratch copy used by the stitcher. -/
structure CdoEnv where
  execute : XPlmi_Cmd → Nat × XPlmi_Cmd
  resume : XPlmi_Cmd → Nat × XPlmi_Cmd
  smemCpyStatus : Nat

/-- Observable events of one run: a handler invocation (with the command
view handed to it; `isResume` tells the resume entry from the execute
entry) and a report to the external error manager `XPlmi_ErrMgr`. -/
inductive CdoEvent where
  | dispatch (isResume : Bool) (cmd : XPlmi_Cmd)
  | errMgr (status : Nat)
deriving Repr, DecidableEq

/-! ## The translated functions -/

/-- `XPlmi_CmdSize` (xplmi_cdo.c lines 96-114): size in words of the
command at the head of the buffer. -/
def XPlmi_CmdSize (Buf : List Nat) (Len : Nat) : Nat :=
  if 1 ≤ Len then
    let CmdId := Buf.getD 0 0
    let PayloadLen := (CmdId &&& XPLMI_CMD_LEN_MASK) >>> 16
    if PayloadLen = XPLMI_MAX_SHORT_CMD_LEN then
      let PayloadLen1 := if XPLMI_LONG_CMD_HDR_LEN ≤ Len then Buf.getD 1 0 else PayloadLen
      let PayloadLen2 :=
        if XPLMI_MAX_LONG_CMD_LEN < PayloadLen1 then XPLMI_MAX_LONG_CMD_LEN else PayloadLen1
      XPLMI_LONG_CMD_HDR_LEN + PayloadLen2
    else
      1 + PayloadLen
  else 1

/-- `XPlmi_SetupCmd` (xplmi_cdo.c lines 128-148).  `BufLen - HdrLen` is
computed with u32 wraparound (`sub32`); every caller passes
`BufLen ≥ HdrLen`, where the two coincide with plain subtraction. -/
def XPlmi_SetupCmd (Cmd : XPlmi_Cmd) (Buf : List Nat) (BufLen : Nat) : XPlmi_Cmd :=
  let CmdId := Buf.getD 0 0
  let ShortLen := (CmdId >>> XPLMI_SHORT_CMD_LEN_SHIFT) &&& XPLMI_MAX_SHORT_CMD_LEN
  let HdrLen := if ShortLen = XPLMI_MAX_SHORT_CMD_LEN then XPLMI_LONG_CMD_HDR_LEN else 1
  let Len := if ShortLen = XPLMI_MAX_SHORT_CMD_LEN then Buf.getD 1 0 else ShortLen
  let PayloadLen := if sub32 BufLen HdrLen < Len then sub32 BufLen HdrLen else Len
  { Cmd with
    CmdId := CmdId
    Len := Len
    ProcessedLen := 0
    Payload := (Buf.drop HdrLen).take PayloadLen
    PayloadLen := PayloadLen }

/-- `XPlmi_CdoVerifyHeader` (xplmi_cdo.c lines 159-194): check the
identification word, then the bitwise-inverted u32 sum of the first
four header words against the fifth. -/
def XPlmi_CdoVerifyHeader (CdoPtr : XPlmiCdo) : Nat :=
  let CdoHdr := CdoPtr.BufPtr
  if CdoHdr.getD 1 0 ≠ XPLMI_CDO_HDR_IDN_WRD then
    XPlmi_UpdateStatus XPLMI_ERR_CDO_HDR_ID 0
  else
    let CheckSum :=
      (List.range (XPLMI_CDO_HDR_LEN - 1)).foldl (fun s i => add32 s (CdoHdr.getD i 0)) 0
    let CheckSum1 := CheckSum ^^^ 0xFFFFFFFF
    if CheckSum1 ≠ CdoHdr.getD (XPLMI_CDO_HDR_LEN - 1) 0 then
      XPlmi_UpdateStatus XPLMI_ERR_CDO_CHECKSUM 0
    else
      XST_SUCCESS

/-- `XPlmi_InitCdo` (xplmi_cdo.c lines 205-220): zero the structure,
then set `Cdo1stChunk`. -/
def XPlmi_InitCdo : XPlmiCdo :=
  { BufPtr := []
    BufLen := 0
    NextChunkAddr := 0
    TempCmdBuf := []
    CdoLen := 0
    ProcessedCdoLen := 0
    CopiedCmdLen := 0
    CmdState := XPLMI_CMD_STATE_START
    Cmd :=
      { SubsystemId := 0, IpiMask := 0, CmdId := 0, Len := 0, ProcessedLen := 0
        PayloadLen := 0, Payload := [], DeferredError := false, ProcessedCdoLen := 0
        BreakLength := 0, KeyHoleParams := { ExtraWords := 0 } }
    Cdo1stChunk := true
    CmdEndDetected := false
    DeferredError := false
    SubsystemId := 0 }

/-- Modelled from the spec: `XPlmi_CmdExecute` (xplmi_cmd.c, not under
src/) looks the handler up in the command registry, invokes its execute
entry and, on success, adds the consumed `PayloadLen` to the command's
`ProcessedLen` ("add the words actually consumed to processed_length"). -/
def XPlmi_CmdExecute (env : CdoEnv) (Cmd : XPlmi_Cmd) : Nat × XPlmi_Cmd :=
  let r := env.execute Cmd
  if r.1 = XST_SUCCESS then
    (r.1, { r.2 with ProcessedLen := r.2.ProcessedLen + r.2.PayloadLen })
  else r

/-- Modelled from the spec: `XPlmi_CmdResume` (xplmi_cmd.c, not under
src/) invokes the handler's resume entry and, on success, adds the
consumed `PayloadLen` to the command's `ProcessedLen`. -/
def XPlmi_CmdResume (env : CdoEnv) (Cmd : XPlmi_Cmd) : Nat × XPlmi_Cmd :=
  let r := env.resume Cmd
  if r.1 = XST_SUCCESS then
    (r.1, { r.2 with ProcessedLen := r.2.ProcessedLen + r.2.PayloadLen })
  else r

/-- `XPlmi_CdoCmdResume` (xplmi_cdo.c lines 235-271).  Returns
(status, updated state, `*Size`, events).  The branch guard
`CmdPtr->Len > (CmdPtr->ProcessedLen + BufLen)` compares against a u32
sum that can wrap (`add32` here), and `Len - ProcessedLen` is u32
subtraction (`sub32`); the guard makes the subtraction exact whenever
`ProcessedLen ≤ Len`. -/
def XPlmi_CdoCmdResume (env : CdoEnv) (CdoPtr : XPlmiCdo) (BufPtr : List Nat) (BufLen : Nat) :
    Nat × XPlmiCdo × Nat × List CdoEvent :=
  let CmdPtr := CdoPtr.Cmd
  let PayloadLen :=
    if add32 CmdPtr.ProcessedLen BufLen < CmdPtr.Len then BufLen
    else sub32 CmdPtr.Len CmdPtr.ProcessedLen
  let CmdState1 :=
    if add32 CmdPtr.ProcessedLen BufLen < CmdPtr.Len then CdoPtr.CmdState
    else XPLMI_CMD_STATE_START
  let Cmd1 :=
    { CmdPtr with
      PayloadLen := PayloadLen
      SubsystemId := CdoPtr.SubsystemId
      IpiMask := 0
      Payload := BufPtr.take PayloadLen
      ProcessedCdoLen := CdoPtr.ProcessedCdoLen }
  let Size := Cmd1.PayloadLen
  let r := XPlmi_CmdResume env Cmd1
  (r.1,
   { CdoPtr with
     CmdState := CmdState1
     Cmd := r.2
     ProcessedCdoLen := CdoPtr.ProcessedCdoLen + Size },
   Size,
   [CdoEvent.dispatch true Cmd1])

/-- `XPlmi_CdoCmdExecute` (xplmi_cdo.c lines 286-369).  Returns
(status, updated state, `*Size`, events).  On the END path `*Size` is
left untouched by the C (the loop exits before using it); the model
returns 0 there.  The keyhole-completion test
`CmdPtr->Len == (CmdPtr->PayloadLen - 1U)` is u32 arithmetic, hence the
`sub32 _ 1`. -/
def XPlmi_CdoCmdExecute (env : CdoEnv) (CdoPtr : XPlmiCdo) (BufPtr : List Nat) (BufLen : Nat) :
    Nat × XPlmiCdo × Nat × List CdoEvent :=
  if BufPtr.getD 0 0 = XPLMI_CMD_END then
    (XST_SUCCESS, { CdoPtr with CmdEndDetected := true }, 0, [])
  else
    let Size := XPlmi_CmdSize BufPtr BufLen
    let Cmd0 := { CdoPtr.Cmd with Len := Size }
    if BufLen < Size ∧ BufLen < XPLMI_CMD_LEN_TEMPBUF then
      -- stitch: copy the available words to the scratch area placed
      -- immediately before NextChunkAddr
      if env.smemCpyStatus ≠ XST_SUCCESS then
        (XPlmi_UpdateStatus XPLMI_ERR_MEMCPY_CMD_EXEC env.smemCpyStatus,
         { CdoPtr with Cmd := Cmd0 }, Size, [])
      else
        (XST_SUCCESS,
         { CdoPtr with
           Cmd := Cmd0
           TempCmdBuf := BufPtr.take BufLen
           CopiedCmdLen := BufLen },
         BufLen, [])
    else
      let Size1 := if BufLen < Size then BufLen else Size
      let CmdState1 := if BufLen < Size then XPLMI_CMD_STATE_RESUME else CdoPtr.CmdState
      let Cmd1 := { Cmd0 with SubsystemId := CdoPtr.SubsystemId, IpiMask := 0, BreakLength := 0 }
      let Cmd2 := XPlmi_SetupCmd Cmd1 BufPtr Size1
      let Cmd3 := { Cmd2 with DeferredError := false, ProcessedCdoLen := CdoPtr.ProcessedCdoLen }
      let r := XPlmi_CmdExecute env Cmd3
      if r.1 ≠ XST_SUCCESS then
        (r.1, { CdoPtr with CmdState := CmdState1, Cmd := r.2 }, Size1,
         [CdoEvent.dispatch false Cmd3])
      else if r.2.Len % MOD32 = sub32 r.2.PayloadLen 1 then
        -- keyhole completion: fold the extra consumed words in
        (r.1,
         { CdoPtr with
           CmdState := XPLMI_CMD_STATE_START
           Cmd := { r.2 with PayloadLen := r.2.Len }
           ProcessedCdoLen := CdoPtr.ProcessedCdoLen + Size1 + r.2.KeyHoleParams.ExtraWords
           CopiedCmdLen := 0 },
         Size1, [CdoEvent.dispatch false Cmd3])
      else
        (r.1,
         { CdoPtr with
           CmdState := CmdState1
           Cmd := r.2
           ProcessedCdoLen := CdoPtr.ProcessedCdoLen + Size1 },
         Size1, [CdoEvent.dispatch false Cmd3])

/-- The command-dispatch loop of `XPlmi_ProcessCdo` (xplmi_cdo.c lines
453-505), as a fueled recursion.  One unit of fuel per iteration; each
iteration consumes at least one word of a well-formed buffer, so fuel
equal to the buffer length suffices (claim C10).  `BufLen - Size` at the
bottom of the loop is u32 subtraction in the C (`sub32`). -/
def XPlmi_ProcessCdoLoop (env : CdoEnv) (SldInitiated : Bool) :
    Nat → XPlmiCdo → List Nat → Nat → List CdoEvent →
    Option (Nat × XPlmiCdo × List CdoEvent)
  | fuel, CdoPtr, BufPtr, BufLen, acc =>
    if BufLen = 0 then some (XST_SUCCESS, CdoPtr, acc)
    else
      match fuel with
      | 0 => none
      | fuel + 1 =>
        let r :=
          if CdoPtr.CmdState = XPLMI_CMD_STATE_RESUME then
            XPlmi_CdoCmdResume env CdoPtr BufPtr BufLen
          else
            XPlmi_CdoCmdExecute env CdoPtr BufPtr BufLen
        let Status := r.1
        let Cdo1 := r.2.1
        let Size := r.2.2.1
        let acc1 := acc ++ r.2.2.2
        let Cdo2 := { Cdo1 with DeferredError := Cdo1.DeferredError || Cdo1.Cmd.DeferredError }
        if Status ≠ XST_SUCCESS ∧ SldInitiated = false then some (Status, Cdo2, acc1)
        else
          let acc2 := if Status ≠ XST_SUCCESS then acc1 ++ [CdoEvent.errMgr Status] else acc1
          if Cdo2.CmdEndDetected then some (Status, Cdo2, acc2)
          else if Cdo2.Cmd.BreakLength ≠ 0 then
            if Cdo2.Cmd.BreakLength < Cdo2.ProcessedCdoLen then
              some (XPLMI_INVALID_BREAK_LENGTH, Cdo2, acc2)
            -- break target ahead from here on: `BreakLength - ProcessedCdoLen`
            -- cannot wrap (checked just above), plain subtraction is exact
            else if Size + (Cdo2.Cmd.BreakLength - Cdo2.ProcessedCdoLen) < BufLen then
              let Size1 := Size + (Cdo2.Cmd.BreakLength - Cdo2.ProcessedCdoLen)
              let Cdo3 :=
                { Cdo2 with
                  ProcessedCdoLen := Cdo2.Cmd.BreakLength
                  Cmd := { Cdo2.Cmd with BreakLength := 0 } }
              XPlmi_ProcessCdoLoop env SldInitiated fuel Cdo3 (BufPtr.drop Size1)
                (sub32 BufLen Size1) acc2
            else
              some (XST_SUCCESS,
                { Cdo2 with ProcessedCdoLen := Cdo2.ProcessedCdoLen + sub32 BufLen Size },
                acc2)
          else
            XPlmi_ProcessCdoLoop env SldInitiated fuel Cdo2 (BufPtr.drop Size)
              (sub32 BufLen Size) acc2

/-- `XPlmi_ProcessCdo` after the one-time header processing
(xplmi_cdo.c lines 403-505): object-length clamp, END short-circuit,
stitched-prefix merge, carried-over break handling, then the dispatch
loop.  `BufPtr` is the local buffer pointer (already advanced past the
header on the first chunk); the state's `BufLen` holds the local length. -/
def XPlmi_ProcessCdoRest (env : CdoEnv) (SldInitiated : Bool) (CdoPtr : XPlmiCdo)
    (BufPtr : List Nat) : Option (Nat × XPlmiCdo × List CdoEvent) :=
  let BufLen := CdoPtr.BufLen
  -- lines 409-412: clamp BufLen when more was copied than the CDO length
  let Clamp := CdoPtr.CdoLen < add32 (add32 BufLen CdoPtr.ProcessedCdoLen) CdoPtr.CopiedCmdLen
  let BufLen1 :=
    if Clamp then sub32 (sub32 CdoPtr.CdoLen CdoPtr.ProcessedCdoLen) CdoPtr.CopiedCmdLen
    else BufLen
  let Cdo1 := if Clamp then { CdoPtr with BufLen := BufLen1 } else CdoPtr
  -- lines 414-421: END already detected in a previous call
  if Cdo1.CmdEndDetected then some (XST_SUCCESS, Cdo1, [])
  else
    -- lines 429-433: rebuild the view over the stitched prefix
    let Cdo2 := if Cdo1.CopiedCmdLen ≠ 0 then { Cdo1 with CopiedCmdLen := 0 } else Cdo1
    let BufPtr2 := if Cdo1.CopiedCmdLen ≠ 0 then Cdo1.TempCmdBuf ++ BufPtr else BufPtr
    let BufLen2 := if Cdo1.CopiedCmdLen ≠ 0 then BufLen1 + Cdo1.CopiedCmdLen else BufLen1
    -- lines 435-451: break carried over from a previous chunk
    if Cdo2.Cmd.BreakLength ≠ 0 then
      let RemainingLen := sub32 Cdo2.Cmd.BreakLength Cdo2.ProcessedCdoLen
      if BufLen2 ≤ RemainingLen then
        some (XST_SUCCESS,
          { Cdo2 with ProcessedCdoLen := Cdo2.ProcessedCdoLen + BufLen2 }, [])
      else
        let Cdo3 :=
          { Cdo2 with
            ProcessedCdoLen := Cdo2.ProcessedCdoLen + RemainingLen
            Cmd := { Cdo2.Cmd with BreakLength := 0 } }
        XPlmi_ProcessCdoLoop env SldInitiated (BufLen2 - RemainingLen) Cdo3
          (BufPtr2.drop RemainingLen) (BufLen2 - RemainingLen) []
    else
      XPlmi_ProcessCdoLoop env SldInitiated BufLen2 Cdo2 BufPtr2 BufLen2 []

/-- `XPlmi_ProcessCdo` (xplmi_cdo.c lines 380-510).  On the first chunk
the header is verified (fatal on failure, state untouched), the declared
object length is read from header word 3, and the view advances past the
header. -/
def XPlmi_ProcessCdo (env : CdoEnv) (SldInitiated : Bool) (CdoPtr : XPlmiCdo) :
    Option (Nat × XPlmiCdo × List CdoEvent) :=
  if CdoPtr.Cdo1stChunk then
    if XPlmi_CdoVerifyHeader CdoPtr ≠ XST_SUCCESS then
      some (XPlmi_CdoVerifyHeader CdoPtr, CdoPtr, [])
    else
      XPlmi_ProcessCdoRest env SldInitiated
        { CdoPtr with
          Cdo1stChunk := false
          CdoLen := CdoPtr.BufPtr.getD 3 0
          BufLen := sub32 CdoPtr.BufLen XPLMI_CDO_HDR_LEN }
        (CdoPtr.BufPtr.drop XPLMI_CDO_HDR_LEN)
  else
    XPlmi_ProcessCdoRest env SldInitiated CdoPtr CdoPtr.BufPtr

/-- The loader's per-chunk call (spec section 6): install the chunk view
in the state and invoke the processor. -/
def XPlmi_FeedChunk (env : CdoEnv) (SldInitiated : Bool) (st : XPlmiCdo) (chunk : List Nat) :
    Option (Nat × XPlmiCdo × List CdoEvent) :=
  XPlmi_ProcessCdo env SldInitiated { st with BufPtr := chunk, BufLen := chunk.length }

/-- Feed a list of chunks in order, accumulating the events; the loader
stops on the first fatal status. -/
def XPlmi_RunChunks (env : CdoEnv) (SldInitiated : Bool) :
    XPlmiCdo → List (List Nat) → List CdoEvent → Option (Nat × XPlmiCdo × List CdoEvent)
  | st, [], acc => some (XST_SUCCESS, st, acc)
  | st, c :: cs, acc =>
    match XPlmi_FeedChunk env SldInitiated st c with
    | none => none
    | some r =>
      if r.1 = XST_SUCCESS then XPlmi_RunChunks env SldInitiated r.2.1 cs (acc ++ r.2.2)
      else some (r.1, r.2.1, acc ++ r.2.2)

/-- The deferred-error fold of xplmi_cdo.c line 463
(`CdoPtr->DeferredError |= CdoPtr->Cmd.DeferredError`). -/
def orDeferred (c : XPlmiCdo) : XPlmiCdo :=
  { c with DeferredError := c.DeferredError || c.Cmd.DeferredError }

/-- The header checksum as the spec words it: bitwise inversion of the
(u32) sum of all header words except the last. -/
def CdoHdrCheckSum (l : List Nat) : Nat :=
  ((l.getD 0 0 + l.getD 1 0 + l.getD 2 0 + l.getD 3 0) % MOD32) ^^^ 0xFFFFFFFF

/-- The projection of an event trace onto freshly dispatched commands
(execute-entry invocations): command id and declared payload length.
Resume invocations continue a command already dispatched, so they do
not add a command to the dispatched sequence. -/
def freshPairs (evs : List CdoEvent) : List (Nat × Nat) :=
  evs.filterMap fun e =>
    match e with
    | CdoEvent.dispatch false c => some (c.CmdId, c.Len)
    | _ => none

/-- An environment whose handlers always succeed without mutating the
command structure and whose scratch copies succeed: the reference
handler registry used to observe the engine's own behaviour. -/
def idEnv : CdoEnv :=
  { execute := fun c => (XST_SUCCESS, c)
    resume := fun c => (XST_SUCCESS, c)
    smemCpyStatus := XST_SUCCESS }

/-- An environment whose handlers always fail (without mutating the
command structure). -/
def failEnv : CdoEnv :=
  { execute := fun c => (XST_FAILURE, c)
    resume := fun c => (XST_FAILURE, c)
    smemCpyStatus := XST_SUCCESS }

/-- An environment whose handlers succeed but whose scratch copy fails. -/
def cpyFailEnv : CdoEnv :=
  { execute := fun c => (XST_SUCCESS, c)
    resume := fun c => (XST_SUCCESS, c)
    smemCpyStatus := 7 }

/-- A mid-stream state whose carried-over break target (1) already lies
strictly below `ProcessedCdoLen` (5). -/
def breakBehindSt : XPlmiCdo :=
  { XPlmi_InitCdo with
    Cdo1stChunk := false
    CdoLen := 100
    ProcessedCdoLen := 5
    Cmd := { XPlmi_InitCdo.Cmd with BreakLength := 1 }
    BufPtr := [65536, 65537]
    BufLen := 2 }

/-- A mid-stream idle state whose three-word command overruns its
two-word view (view shorter than the stitch threshold), forcing the
stitcher. -/
def stitchSt : XPlmiCdo :=
  { XPlmi_InitCdo with
    Cdo1stChunk := false
    CdoLen := 20
    BufPtr := [131073, 9]
    BufLen := 2 }

/-- The payload length `XPlmi_CdoCmdResume` computes for the current
view (xplmi_cdo.c lines 242-247); the comparison is against the wrapped
u32 sum `ProcessedLen + BufLen`. -/
def resumePayloadLen (cdo : XPlmiCdo) (BufLen : Nat) : Nat :=
  if add32 cdo.Cmd.ProcessedLen BufLen < cdo.Cmd.Len then BufLen
  else sub32 cdo.Cmd.Len cdo.Cmd.ProcessedLen

/-- The command view `XPlmi_CdoCmdResume` hands to the resume handler. -/
def resumeCmdView (cdo : XPlmiCdo) (BufPtr : List Nat) (BufLen : Nat) : XPlmi_Cmd :=
  { cdo.Cmd with
    PayloadLen := resumePayloadLen cdo BufLen
    SubsystemId := cdo.SubsystemId
    IpiMask := 0
    Payload := BufPtr.take (resumePayloadLen cdo BufLen)
    ProcessedCdoLen := cdo.ProcessedCdoLen }

/-- The `*Size` value of `XPlmi_CdoCmdExecute` after the partial-execution
adjustment (xplmi_cdo.c lines 304, 332-333). -/
def execSize1 (buf : List Nat) (BufLen : Nat) : Nat :=
  if BufLen < XPlmi_CmdSize buf BufLen then BufLen else XPlmi_CmdSize buf BufLen

/-- The command view `XPlmi_CdoCmdExecute` hands to the execute handler
(xplmi_cdo.c lines 305, 336-344). -/
def execCmdView (cdo : XPlmiCdo) (buf : List Nat) (BufLen : Nat) : XPlmi_Cmd :=
  { XPlmi_SetupCmd
      { cdo.Cmd with
        Len := XPlmi_CmdSize buf BufLen
        SubsystemId := cdo.SubsystemId
        IpiMask := 0
        BreakLength := 0 }
      buf (execSize1 buf BufLen) with
    DeferredError := false
    ProcessedCdoLen := cdo.ProcessedCdoLen }

/-- A mid-stream idle state holding a complete one-payload-word command,
a complete zero-payload command, and the END word. -/
def lockdownSt : XPlmiCdo :=
  { XPlmi_InitCdo with
    Cdo1stChunk := false
    CdoLen := 10
    BufPtr := [65537, 42, 2, XPLMI_CMD_END]
    BufLen := 4 }

/-- A mid-stream state whose carried-over break target (8) lies beyond
its three-word chunk. -/
def breakAheadSt : XPlmiCdo :=
  { XPlmi_InitCdo with
    Cdo1stChunk := false
    CdoLen := 100
    ProcessedCdoLen := 0
    Cmd := { XPlmi_InitCdo.Cmd with BreakLength := 8 }
    BufPtr := [65536, 65537, 65538]
    BufLen := 3 }

/-- The command header length in words as decoded by `XPlmi_SetupCmd`:
two words in the long (sentinel) form, one word otherwise. -/
def cmdHdrLen (Buf : List Nat) : Nat :=
  if (Buf.getD 0 0 >>> XPLMI_SHORT_CMD_LEN_SHIFT) &&& XPLMI_MAX_SHORT_CMD_LEN =
      XPLMI_MAX_SHORT_CMD_LEN then XPLMI_LONG_CMD_HDR_LEN else 1

/-- A mid-command resuming state: a long command with declared payload
length 10 of which 6 words are already consumed. -/
def resumeSt : XPlmiCdo :=
  { XPlmi_InitCdo with
    Cdo1stChunk := false
    CdoLen := 50
    ProcessedCdoLen := 8
    CmdState := XPLMI_CMD_STATE_RESUME
    Cmd := { XPlmi_InitCdo.Cmd with CmdId := 16711687, Len := 10, ProcessedLen := 6 } }

/-- The handler contract of the command registry (spec section 4): a
handler may mutate its command structure, but the engine-owned framing
fields — `Len`, `ProcessedLen`, `PayloadLen` — come back as handed in
(the wrappers in xplmi_cmd.c, not the handlers, account the consumed
payload into `ProcessedLen`). -/
def HandlerKeepsEngineFields (env : CdoEnv) : Prop :=
  ∀ c : XPlmi_Cmd,
    (env.execute c).2.Len = c.Len ∧ (env.execute c).2.ProcessedLen = c.ProcessedLen ∧
    (env.execute c).2.PayloadLen = c.PayloadLen ∧
    (env.resume c).2.Len = c.Len ∧ (env.resume c).2.ProcessedLen = c.ProcessedLen ∧
    (env.resume c).2.PayloadLen = c.PayloadLen

/-- The declared payload length of the command at the head of `s`: the
short-length field of word 0, or word 1 (uncapped) in sentinel form. -/
def refLen (s : List Nat) : Nat :=
  if (s.getD 0 0 >>> XPLMI_SHORT_CMD_LEN_SHIFT) &&& XPLMI_MAX_SHORT_CMD_LEN =
      XPLMI_MAX_SHORT_CMD_LEN then s.getD 1 0
  else (s.getD 0 0 >>> XPLMI_SHORT_CMD_LEN_SHIFT) &&& XPLMI_MAX_SHORT_CMD_LEN

/-- The intrinsic size in words of the command at the head of `s`: the
framer applied to the whole remaining stream. -/
def refSize (s : List Nat) : Nat := XPlmi_CmdSize s s.length

/-- Well-formed post-header streams: complete in-bounds commands (none
headed by the END opcode, each with an in-range declared length),
terminated by an END word. -/
inductive WfCmds : List Nat → Prop where
  | end_word (s : List Nat) (hne : s ≠ []) (hw : s.getD 0 0 = XPLMI_CMD_END) : WfCmds s
  | more (s : List Nat) (hne : s ≠ []) (hw : s.getD 0 0 ≠ XPLMI_CMD_END)
      (hsz : refSize s ≤ s.length) (hcap : refLen s ≤ XPLMI_MAX_LONG_CMD_LEN)
      (hrec : WfCmds (s.drop (refSize s))) : WfCmds s

/-- The reference parser: splits the stream into framed commands up to
the first END word, returning the dispatched (id, declared length) pairs
and the number of words consumed. -/
def RefParse : Nat → List Nat → List (Nat × Nat) × Nat
  | 0, _ => ([], 0)
  | fuel + 1, s =>
    if s.length = 0 then ([], 0)
    else if s.getD 0 0 = XPLMI_CMD_END then ([], 0)
    else
      let r := RefParse fuel (s.drop (refSize s))
      ((s.getD 0 0, refLen s) :: r.1, refSize s + r.2)

/-- The engine's synchronization modes during a fragmented run: idle
between commands at stream offset `q`; resuming a partially executed
command with `rem` payload words outstanding; holding `t` stitched words
of an unfinished command header in the scratch buffer; or stopped after
the END word with final processed length `p`. -/
inductive RefMode where
  | idle (q : Nat)
  | resuming (q rem : Nat)
  | stitched (q t : Nat)
  | ended (p : Nat)
deriving Repr, DecidableEq

/-- Stream words delivered to and owned by the engine in a mode:
consumed words plus stitched words pending re-delivery. -/
def modePos : RefMode → Nat
  | RefMode.idle q => q
  | RefMode.resuming q _ => q
  | RefMode.stitched q t => q + t
  | RefMode.ended _ => 0

/-- The engine-state invariant of each synchronization mode. -/
def modeInv (S : List Nat) (D : Nat) : RefMode → XPlmiCdo → Prop
  | RefMode.idle q, st =>
      st.CmdState = XPLMI_CMD_STATE_START ∧ st.CopiedCmdLen = 0 ∧
      st.ProcessedCdoLen = q ∧ st.Cmd.BreakLength = 0 ∧ st.CmdEndDetected = false ∧
      st.Cdo1stChunk = false ∧ st.CdoLen = D ∧ q ≤ S.length ∧ WfCmds (S.drop q)
  | RefMode.resuming q rem, st =>
      st.CmdState = XPLMI_CMD_STATE_RESUME ∧ st.CopiedCmdLen = 0 ∧
      st.ProcessedCdoLen = q ∧ st.Cmd.BreakLength = 0 ∧ st.CmdEndDetected = false ∧
      st.Cdo1stChunk = false ∧ st.CdoLen = D ∧ 0 < rem ∧ q + rem ≤ S.length ∧
      st.Cmd.Len = st.Cmd.ProcessedLen + rem ∧ st.Cmd.Len < MOD32 ∧
      st.Cmd.ProcessedLen ≤ q ∧ WfCmds (S.drop (q + rem))
  | RefMode.stitched q t, st =>
      st.CmdState = XPLMI_CMD_STATE_START ∧ st.CopiedCmdLen = t ∧
      st.ProcessedCdoLen = q ∧ st.Cmd.BreakLength = 0 ∧ st.CmdEndDetected = false ∧
      st.Cdo1stChunk = false ∧ st.CdoLen = D ∧ 0 < t ∧ t < XPLMI_CMD_LEN_TEMPBUF ∧
      t < refSize (S.drop q) ∧ st.TempCmdBuf = (S.drop q).take t ∧ q + t ≤ S.length ∧
      WfCmds (S.drop q)
  | RefMode.ended p, st =>
      st.CmdEndDetected = true ∧ st.Cdo1stChunk = false ∧ st.ProcessedCdoLen = p

/-- The reference (id, length) pairs still to be dispatched from a mode
(a resuming command has already been dispatched; a stitched one not). -/
def remPairs (S : List Nat) : RefMode → List (Nat × Nat)
  | RefMode.idle q => (RefParse (S.length - q) (S.drop q)).1
  | RefMode.stitched q _ => (RefParse (S.length - q) (S.drop q)).1
  | RefMode.resuming q rem => (RefParse (S.length - (q + rem)) (S.drop (q + rem))).1
  | RefMode.ended _ => []

/-- The final `ProcessedCdoLen` the engine reaches from a mode once the
rest of the stream is delivered. -/
def remP (S : List Nat) : RefMode → Nat
  | RefMode.idle q => q + (RefParse (S.length - q) (S.drop q)).2
  | RefMode.stitched q _ => q + (RefParse (S.length - q) (S.drop q)).2
  | RefMode.resuming q rem => q + rem + (RefParse (S.length - (q + rem)) (S.drop (q + rem))).2
  | RefMode.ended p => p

/-! ## Arithmetic and list helper lemmas -/

theorem MOD32_pos : 0 < MOD32 := by decide

theorem add32_eq (a b : Nat) (h : a + b < MOD32) : add32 a b = a + b := by
  unfold add32
  exact Nat.mod_eq_of_lt h

theorem sub32_eq (a b : Nat) (hba : b ≤ a) (ha : a < MOD32) : sub32 a b = a - b := by
  unfold sub32
  rw [Nat.mod_eq_of_lt ha, Nat.mod_eq_of_lt (Nat.lt_of_le_of_lt hba ha)]
  have h1 : a + (MOD32 - b) = MOD32 + (a - b) := by omega
  rw [h1, Nat.add_mod_left, Nat.mod_eq_of_lt (by omega)]

theorem sub32_self (a : Nat) : sub32 a a = 0 := by
  unfold sub32
  have h : a % MOD32 + (MOD32 - a % MOD32) = MOD32 := by
    have := Nat.mod_lt a MOD32_pos
    omega
  rw [h, Nat.mod_self]

theorem sub32_lt (a b : Nat) : sub32 a b < MOD32 := by
  unfold sub32
  exact Nat.mod_lt _ MOD32_pos

theorem sub32_underflow (a b : Nat) (hab : a < b) (hb : b < MOD32) :
    sub32 a b = MOD32 + a - b := by
  unfold sub32
  rw [Nat.mod_eq_of_lt (Nat.lt_trans hab hb), Nat.mod_eq_of_lt hb,
    Nat.mod_eq_of_lt (by omega)]
  omega

theorem getD_take_of_lt (l : List Nat) (n i : Nat) (h : i < n) :
    (l.take n).getD i 0 = l.getD i 0 := by
  simp only [List.getD_eq_getElem?_getD, List.getElem?_take, if_pos h]

theorem getD_append_of_lt (l l2 : List Nat) (i : Nat) (h : i < l.length) :
    (l ++ l2).getD i 0 = l.getD i 0 := by
  simp only [List.getD_eq_getElem?_getD, List.getElem?_append, if_pos h]

theorem drop_take_swap (l : List Nat) (s n : Nat) :
    (l.take n).drop s = (l.drop s).take (n - s) := by
  rw [List.drop_take]

/-! ## Claim C5 — length decoding (`XPlmi_CmdSize`) -/

theorem cmdSize_short (Buf : List Nat) (Len : Nat) (h1 : 1 ≤ Len)
    (hN : (Buf.getD 0 0 &&& XPLMI_CMD_LEN_MASK) >>> 16 ≠ XPLMI_MAX_SHORT_CMD_LEN) :
    XPlmi_CmdSize Buf Len = 1 + (Buf.getD 0 0 &&& XPLMI_CMD_LEN_MASK) >>> 16 := by
  simp only [XPlmi_CmdSize, if_pos h1, if_neg hN]

theorem cmdSize_long (Buf : List Nat) (Len : Nat) (h2 : 2 ≤ Len)
    (hN : (Buf.getD 0 0 &&& XPLMI_CMD_LEN_MASK) >>> 16 = XPLMI_MAX_SHORT_CMD_LEN) :
    XPlmi_CmdSize Buf Len = 2 + min (Buf.getD 1 0) XPLMI_MAX_LONG_CMD_LEN := by
  have h1 : 1 ≤ Len := by omega
  simp only [XPlmi_CmdSize, if_pos h1, if_pos hN, if_pos h2,
    XPLMI_LONG_CMD_HDR_LEN]
  congr 1
  rcases Nat.lt_or_ge XPLMI_MAX_LONG_CMD_LEN (Buf.getD 1 0) with hL | hL
  · rw [if_pos hL, Nat.min_eq_right (le_of_lt hL)]
  · rw [if_neg (not_lt.mpr hL), Nat.min_eq_left hL]

/-- C5: for every buffer view of at least one word, the command framer
returns `1 + N` when the short-length field of word 0 (bits [23:16])
holds `N < 255`, and `2 + min L MAX` when the field holds the sentinel
255 and a second word `L` is available.  The framer is a pure function
of the buffer view (it has no access to handlers or state), so it never
dispatches a command. -/
theorem c5_length_decoding (Buf : List Nat) (Len : Nat) (h1 : 1 ≤ Len) :
    ((Buf.getD 0 0 &&& XPLMI_CMD_LEN_MASK) >>> 16 < XPLMI_MAX_SHORT_CMD_LEN →
      XPlmi_CmdSize Buf Len = 1 + (Buf.getD 0 0 &&& XPLMI_CMD_LEN_MASK) >>> 16) ∧
    ((Buf.getD 0 0 &&& XPLMI_CMD_LEN_MASK) >>> 16 = XPLMI_MAX_SHORT_CMD_LEN → 2 ≤ Len →
      XPlmi_CmdSize Buf Len = 2 + min (Buf.getD 1 0) XPLMI_MAX_LONG_CMD_LEN) := by
  constructor
  · intro hlt
    exact cmdSize_short Buf Len h1 (Nat.ne_of_lt hlt)
  · intro hN h2
    exact cmdSize_long Buf Len h2 hN

theorem c5_length_decoding_witness :
    XPlmi_CmdSize [131077, 9, 9] 3 = 1 + 2 ∧
    XPlmi_CmdSize [16711681, 10, 0, 0] 4 = 2 + 10 := by
  constructor
  · have h := (c5_length_decoding [131077, 9, 9] 3 (by decide)).1 (by decide)
    simpa using h
  · have h := (c5_length_decoding [16711681, 10, 0, 0] 4 (by decide)).2 (by decide) (by decide)
    simpa using h

/-! ## Claim C6 — header verification -/

theorem mod32_val : MOD32 = 4294967296 := rfl

theorem verifyHeader_eq (st : XPlmiCdo) :
    XPlmi_CdoVerifyHeader st =
      if st.BufPtr.getD 1 0 ≠ XPLMI_CDO_HDR_IDN_WRD then XPLMI_ERR_CDO_HDR_ID
      else if CdoHdrCheckSum st.BufPtr ≠ st.BufPtr.getD 4 0 then XPLMI_ERR_CDO_CHECKSUM
      else XST_SUCCESS := by
  have hr : List.range (XPLMI_CDO_HDR_LEN - 1) = [0, 1, 2, 3] := by decide
  simp only [XPlmi_CdoVerifyHeader, XPlmi_UpdateStatus, hr, List.foldl, add32,
    CdoHdrCheckSum, Nat.zero_add, Nat.mod_add_mod]
  rfl

theorem xor_ne_of_ne (a b K : Nat) (h : a ≠ b) : a ^^^ K ≠ b ^^^ K := by
  intro he
  apply h
  have := congrArg (fun z => z ^^^ K) he
  simpa [Nat.xor_assoc] using this

theorem processCdo_notfirst (env : CdoEnv) (sld : Bool) (st : XPlmiCdo)
    (h : st.Cdo1stChunk = false) :
    XPlmi_ProcessCdo env sld st = XPlmi_ProcessCdoRest env sld st st.BufPtr := by
  simp [XPlmi_ProcessCdo, h]

theorem processCdo_first_fail (env : CdoEnv) (sld : Bool) (st : XPlmiCdo)
    (h : st.Cdo1stChunk = true) (hv : XPlmi_CdoVerifyHeader st ≠ XST_SUCCESS) :
    XPlmi_ProcessCdo env sld st = some (XPlmi_CdoVerifyHeader st, st, []) := by
  simp [XPlmi_ProcessCdo, h, hv]

theorem processCdo_first_success (env : CdoEnv) (sld : Bool) (st : XPlmiCdo)
    (h : st.Cdo1stChunk = true) (hv : XPlmi_CdoVerifyHeader st = XST_SUCCESS) :
    XPlmi_ProcessCdo env sld st =
      XPlmi_ProcessCdoRest env sld
        { st with
          Cdo1stChunk := false
          CdoLen := st.BufPtr.getD 3 0
          BufLen := sub32 st.BufLen XPLMI_CDO_HDR_LEN }
        (st.BufPtr.drop XPLMI_CDO_HDR_LEN) := by
  simp [XPlmi_ProcessCdo, h, hv]

/-- C6: on the first chunk, header verification requires word 1 to equal
the identification constant (else `HeaderIdentificationError`, fatal)
and the inverted u32 sum of the first four header words to equal the
fifth (else `ChecksumError`, fatal); on either failure the call returns
the error with the state untouched and zero commands dispatched.
Corrupting any single header word before the checksum word of a valid
header triggers one of the two errors with zero commands dispatched.  On
success the declared length is read from header word 3, the view
advances past the header, and the `Cdo1stChunk` gate is cleared so the
verification never runs again for this object. -/
theorem c6_header_integrity (env : CdoEnv) (sld : Bool) (st : XPlmiCdo)
    (hfirst : st.Cdo1stChunk = true)
    (hlen : XPLMI_CDO_HDR_LEN ≤ st.BufPtr.length)
    (hbuflen : XPLMI_CDO_HDR_LEN ≤ st.BufLen) (hb32 : st.BufLen < MOD32) :
    (st.BufPtr.getD 1 0 ≠ XPLMI_CDO_HDR_IDN_WRD →
      XPlmi_ProcessCdo env sld st = some (XPLMI_ERR_CDO_HDR_ID, st, [])) ∧
    (st.BufPtr.getD 1 0 = XPLMI_CDO_HDR_IDN_WRD →
      CdoHdrCheckSum st.BufPtr ≠ st.BufPtr.getD 4 0 →
      XPlmi_ProcessCdo env sld st = some (XPLMI_ERR_CDO_CHECKSUM, st, [])) ∧
    (XPlmi_CdoVerifyHeader st = XST_SUCCESS →
      XPlmi_ProcessCdo env sld st =
        XPlmi_ProcessCdoRest env sld
          { st with
            Cdo1stChunk := false
            CdoLen := st.BufPtr.getD 3 0
            BufLen := st.BufLen - XPLMI_CDO_HDR_LEN }
          (st.BufPtr.drop XPLMI_CDO_HDR_LEN)) ∧
    (∀ st2, st2.Cdo1stChunk = false →
      XPlmi_ProcessCdo env sld st2 = XPlmi_ProcessCdoRest env sld st2 st2.BufPtr) ∧
    (∀ i v, i < XPLMI_CDO_HDR_LEN - 1 → v ≠ st.BufPtr.getD i 0 → v < MOD32 →
      (∀ j, j < XPLMI_CDO_HDR_LEN - 1 → st.BufPtr.getD j 0 < MOD32) →
      XPlmi_CdoVerifyHeader st = XST_SUCCESS →
      ∃ e, (e = XPLMI_ERR_CDO_HDR_ID ∨ e = XPLMI_ERR_CDO_CHECKSUM) ∧
        XPlmi_ProcessCdo env sld { st with BufPtr := st.BufPtr.set i v } =
          some (e, { st with BufPtr := st.BufPtr.set i v }, [])) := by
  refine ⟨?_, ?_, ?_, ?_, ?_⟩
  · intro hid
    have hv : XPlmi_CdoVerifyHeader st = XPLMI_ERR_CDO_HDR_ID := by
      rw [verifyHeader_eq, if_pos hid]
    have := processCdo_first_fail env sld st hfirst (by rw [hv]; decide)
    rw [hv] at this
    exact this
  · intro hid hck
    have hv : XPlmi_CdoVerifyHeader st = XPLMI_ERR_CDO_CHECKSUM := by
      rw [verifyHeader_eq, if_neg (by simpa using hid), if_pos hck]
    have := processCdo_first_fail env sld st hfirst (by rw [hv]; decide)
    rw [hv] at this
    exact this
  · intro hv
    have := processCdo_first_success env sld st hfirst hv
    rwa [sub32_eq st.BufLen XPLMI_CDO_HDR_LEN hbuflen hb32] at this
  · intro st2 h2
    exact processCdo_notfirst env sld st2 h2
  · intro i v hi hv hv32 hbounds hok
    have hi4 : i < 4 := by simpa [XPLMI_CDO_HDR_LEN] using hi
    have hlen5 : 5 ≤ st.BufPtr.length := by simpa [XPLMI_CDO_HDR_LEN] using hlen
    have hid : st.BufPtr.getD 1 0 = XPLMI_CDO_HDR_IDN_WRD := by
      by_contra hne
      rw [verifyHeader_eq, if_pos hne] at hok
      exact absurd hok (by decide)
    have hck : CdoHdrCheckSum st.BufPtr = st.BufPtr.getD 4 0 := by
      by_contra hne
      rw [verifyHeader_eq, if_neg (by simpa using hid), if_pos hne] at hok
      exact absurd hok (by decide)
    set st1 : XPlmiCdo := { st with BufPtr := st.BufPtr.set i v } with hst1
    have hfirst1 : st1.Cdo1stChunk = true := hfirst
    -- getD of the corrupted buffer
    have hgset : ∀ j, j ≠ i → st1.BufPtr.getD j 0 = st.BufPtr.getD j 0 := by
      intro j hj
      simp only [hst1, List.getD_eq_getElem?_getD]
      rw [List.getElem?_set_ne (fun he => hj he.symm)]
    have hgeq : st1.BufPtr.getD i 0 = v := by
      simp only [hst1, List.getD_eq_getElem?_getD]
      rw [@List.getElem?_set_eq_of_lt Nat v i st.BufPtr (by omega)]
      rfl
    by_cases h1 : i = 1
    · -- identification word corrupted
      refine ⟨XPLMI_ERR_CDO_HDR_ID, Or.inl rfl, ?_⟩
      have hid1 : st1.BufPtr.getD 1 0 ≠ XPLMI_CDO_HDR_IDN_WRD := by
        subst h1
        rw [hgeq]
        rw [hid] at hv
        exact hv
      have hv1 : XPlmi_CdoVerifyHeader st1 = XPLMI_ERR_CDO_HDR_ID := by
        rw [verifyHeader_eq, if_pos hid1]
      have := processCdo_first_fail env sld st1 hfirst1 (by rw [hv1]; decide)
      rw [hv1] at this
      exact this
    · -- another word before the checksum corrupted: the sum changes
      refine ⟨XPLMI_ERR_CDO_CHECKSUM, Or.inr rfl, ?_⟩
      have hid1 : st1.BufPtr.getD 1 0 = XPLMI_CDO_HDR_IDN_WRD := by
        rw [hgset 1 (fun he => h1 he.symm)]
        exact hid
      have hsumne : CdoHdrCheckSum st1.BufPtr ≠ CdoHdrCheckSum st.BufPtr := by
        unfold CdoHdrCheckSum
        apply xor_ne_of_ne
        have b0 := hbounds 0 (by decide)
        have b1 := hbounds 1 (by decide)
        have b2 := hbounds 2 (by decide)
        have b3 := hbounds 3 (by decide)
        interval_cases i
        · rw [hgeq, hgset 1 (by decide), hgset 2 (by decide), hgset 3 (by decide)]
          rw [mod32_val] at b0 b1 b2 b3 hv32 ⊢
          omega
        · exact absurd rfl h1
        · rw [hgeq, hgset 0 (by decide), hgset 1 (by decide), hgset 3 (by decide)]
          rw [mod32_val] at b0 b1 b2 b3 hv32 ⊢
          omega
        · rw [hgeq, hgset 0 (by decide), hgset 1 (by decide), hgset 2 (by decide)]
          rw [mod32_val] at b0 b1 b2 b3 hv32 ⊢
          omega
      have hck1 : CdoHdrCheckSum st1.BufPtr ≠ st1.BufPtr.getD 4 0 := by
        rw [hgset 4 (by omega), ← hck]
        exact hsumne
      have hv1 : XPlmi_CdoVerifyHeader st1 = XPLMI_ERR_CDO_CHECKSUM := by
        rw [verifyHeader_eq, if_neg (by simpa using hid1), if_pos hck1]
      have := processCdo_first_fail env sld st1 hfirst1 (by rw [hv1]; decide)
      rw [hv1] at this
      exact this

theorem c6_header_integrity_witness :
    XPlmi_ProcessCdo
        { execute := fun c => (XST_SUCCESS, c), resume := fun c => (XST_SUCCESS, c),
          smemCpyStatus := XST_SUCCESS } false
        { XPlmi_InitCdo with BufPtr := [0, 99, 3, 0, 4289772533], BufLen := 5 } =
      some (XPLMI_ERR_CDO_HDR_ID,
        { XPlmi_InitCdo with BufPtr := [0, 99, 3, 0, 4289772533], BufLen := 5 }, []) := by
  have h := (c6_header_integrity
    { execute := fun c => (XST_SUCCESS, c), resume := fun c => (XST_SUCCESS, c),
      smemCpyStatus := XST_SUCCESS } false
    { XPlmi_InitCdo with BufPtr := [0, 99, 3, 0, 4289772533], BufLen := 5 }
    (by decide) (by decide) (by decide) (by decide)).1 (by decide)
  exact h

/-! ## Claim C8 — END is terminal -/

theorem processCdoRest_end (env : CdoEnv) (sld : Bool) (st : XPlmiCdo) (bufPtr : List Nat)
    (hEnd : st.CmdEndDetected = true) :
    ∃ st2, XPlmi_ProcessCdoRest env sld st bufPtr = some (XST_SUCCESS, st2, []) ∧
      st2.ProcessedCdoLen = st.ProcessedCdoLen ∧ st2.CmdEndDetected = true ∧
      st2.Cdo1stChunk = st.Cdo1stChunk := by
  by_cases hc : st.CdoLen < add32 (add32 st.BufLen st.ProcessedCdoLen) st.CopiedCmdLen
  · refine ⟨{ st with
        BufLen := sub32 (sub32 st.CdoLen st.ProcessedCdoLen) st.CopiedCmdLen }, ?_, rfl, hEnd, rfl⟩
    simp [XPlmi_ProcessCdoRest, hc, hEnd]
  · exact ⟨st, by simp [XPlmi_ProcessCdoRest, hc, hEnd], rfl, hEnd, rfl⟩

theorem processCdo_end_noop (env : CdoEnv) (sld : Bool) (st : XPlmiCdo)
    (hEnd : st.CmdEndDetected = true) (hfirst : st.Cdo1stChunk = false) :
    ∃ st2, XPlmi_ProcessCdo env sld st = some (XST_SUCCESS, st2, []) ∧
      st2.ProcessedCdoLen = st.ProcessedCdoLen ∧ st2.CmdEndDetected = true ∧
      st2.Cdo1stChunk = false := by
  rw [processCdo_notfirst env sld st hfirst]
  obtain ⟨st2, h1, h2, h3, h4⟩ := processCdoRest_end env sld st st.BufPtr hEnd
  exact ⟨st2, h1, h2, h3, h4.trans hfirst⟩

theorem runChunks_end_noop (env : CdoEnv) (sld : Bool) :
    ∀ (chunks : List (List Nat)) (st : XPlmiCdo) (acc : List CdoEvent),
      st.CmdEndDetected = true → st.Cdo1stChunk = false →
      ∃ st3, XPlmi_RunChunks env sld st chunks acc = some (XST_SUCCESS, st3, acc) ∧
        st3.ProcessedCdoLen = st.ProcessedCdoLen ∧ st3.CmdEndDetected = true ∧
        st3.Cdo1stChunk = false
  | [], st, acc, hEnd, hfirst => ⟨st, rfl, rfl, hEnd, hfirst⟩
  | c :: cs, st, acc, hEnd, hfirst => by
    obtain ⟨st2, h1, h2, h3, h4⟩ :=
      processCdo_end_noop env sld { st with BufPtr := c, BufLen := c.length } hEnd hfirst
    obtain ⟨st3, g1, g2, g3, g4⟩ := runChunks_end_noop env sld cs st2 acc h3 h4
    refine ⟨st3, ?_, by rw [g2, h2], g3, g4⟩
    simp only [XPlmi_RunChunks, XPlmi_FeedChunk, h1]
    simp [g1]

/-- C8: once `CmdEndDetected` is set for an object, every subsequent
call of `XPlmi_ProcessCdo` for that object returns success without
dispatching any command and without advancing `ProcessedCdoLen`,
regardless of the buffer contents, the buffer length, or the remaining
declared object length — and so does every further sequence of chunk
deliveries. -/
theorem c8_end_finality (env : CdoEnv) (sld : Bool) (st : XPlmiCdo)
    (hEnd : st.CmdEndDetected = true) (hfirst : st.Cdo1stChunk = false) :
    (∃ st2, XPlmi_ProcessCdo env sld st = some (XST_SUCCESS, st2, []) ∧
      st2.ProcessedCdoLen = st.ProcessedCdoLen ∧ st2.CmdEndDetected = true ∧
      st2.Cdo1stChunk = false) ∧
    (∀ chunks acc,
      ∃ st3, XPlmi_RunChunks env sld st chunks acc = some (XST_SUCCESS, st3, acc) ∧
        st3.ProcessedCdoLen = st.ProcessedCdoLen ∧ st3.CmdEndDetected = true) := by
  refine ⟨processCdo_end_noop env sld st hEnd hfirst, ?_⟩
  intro chunks acc
  obtain ⟨st3, h1, h2, h3, _⟩ := runChunks_end_noop env sld chunks st acc hEnd hfirst
  exact ⟨st3, h1, h2, h3⟩

theorem c8_end_finality_witness :
    ∃ st2,
      XPlmi_ProcessCdo
          { execute := fun c => (XST_SUCCESS, c), resume := fun c => (XST_SUCCESS, c),
            smemCpyStatus := XST_SUCCESS } false
          { XPlmi_InitCdo with
            Cdo1stChunk := false, CmdEndDetected := true, ProcessedCdoLen := 7,
            CdoLen := 50, BufPtr := [1, 2, 3], BufLen := 3 } =
        some (XST_SUCCESS, st2, []) ∧
      st2.ProcessedCdoLen = 7 ∧ st2.CmdEndDetected = true ∧ st2.Cdo1stChunk = false := by
  have h := (c8_end_finality
    { execute := fun c => (XST_SUCCESS, c), resume := fun c => (XST_SUCCESS, c),
      smemCpyStatus := XST_SUCCESS } false
    { XPlmi_InitCdo with
      Cdo1stChunk := false, CmdEndDetected := true, ProcessedCdoLen := 7,
      CdoLen := 50, BufPtr := [1, 2, 3], BufLen := 3 }
    rfl rfl).1
  exact h

/-! ## Single-step characterizations of the dispatch loop -/

theorem loop_exit_zero (env : CdoEnv) (sld : Bool) (fuel : Nat) (cdo : XPlmiCdo)
    (buf : List Nat) (acc : List CdoEvent) :
    XPlmi_ProcessCdoLoop env sld fuel cdo buf 0 acc = some (XST_SUCCESS, cdo, acc) := by
  cases fuel <;> simp [XPlmi_ProcessCdoLoop]

theorem loop_step_error_stop (env : CdoEnv) (fuel : Nat) (cdo : XPlmiCdo) (buf : List Nat)
    (bufLen : Nat) (acc : List CdoEvent) (st : Nat) (cdo1 : XPlmiCdo) (sz : Nat)
    (evs : List CdoEvent) (hne : bufLen ≠ 0)
    (hd : (if cdo.CmdState = XPLMI_CMD_STATE_RESUME then
             XPlmi_CdoCmdResume env cdo buf bufLen
           else XPlmi_CdoCmdExecute env cdo buf bufLen) = (st, cdo1, sz, evs))
    (hst : st ≠ XST_SUCCESS) :
    XPlmi_ProcessCdoLoop env false (fuel + 1) cdo buf bufLen acc =
      some (st, orDeferred cdo1, acc ++ evs) := by
  simp only [XPlmi_ProcessCdoLoop, if_neg hne, hd]
  simp [orDeferred, hst]

theorem loop_step_end (env : CdoEnv) (sld : Bool) (fuel : Nat) (cdo : XPlmiCdo)
    (buf : List Nat) (bufLen : Nat) (acc : List CdoEvent) (cdo1 : XPlmiCdo) (sz : Nat)
    (evs : List CdoEvent) (hne : bufLen ≠ 0)
    (hd : (if cdo.CmdState = XPLMI_CMD_STATE_RESUME then
             XPlmi_CdoCmdResume env cdo buf bufLen
           else XPlmi_CdoCmdExecute env cdo buf bufLen) = (XST_SUCCESS, cdo1, sz, evs))
    (hend : cdo1.CmdEndDetected = true) :
    XPlmi_ProcessCdoLoop env sld (fuel + 1) cdo buf bufLen acc =
      some (XST_SUCCESS, orDeferred cdo1, acc ++ evs) := by
  simp only [XPlmi_ProcessCdoLoop, if_neg hne, hd]
  simp [orDeferred, hend]

theorem loop_step_continue (env : CdoEnv) (sld : Bool) (fuel : Nat) (cdo : XPlmiCdo)
    (buf : List Nat) (bufLen : Nat) (acc : List CdoEvent) (cdo1 : XPlmiCdo) (sz : Nat)
    (evs : List CdoEvent) (hne : bufLen ≠ 0)
    (hd : (if cdo.CmdState = XPLMI_CMD_STATE_RESUME then
             XPlmi_CdoCmdResume env cdo buf bufLen
           else XPlmi_CdoCmdExecute env cdo buf bufLen) = (XST_SUCCESS, cdo1, sz, evs))
    (hend : cdo1.CmdEndDetected = false) (hbl : cdo1.Cmd.BreakLength = 0) :
    XPlmi_ProcessCdoLoop env sld (fuel + 1) cdo buf bufLen acc =
      XPlmi_ProcessCdoLoop env sld fuel (orDeferred cdo1) (buf.drop sz) (sub32 bufLen sz)
        (acc ++ evs) := by
  simp only [XPlmi_ProcessCdoLoop, if_neg hne, hd]
  simp [orDeferred, hend, hbl]

theorem loop_step_break_invalid (env : CdoEnv) (sld : Bool) (fuel : Nat) (cdo : XPlmiCdo)
    (buf : List Nat) (bufLen : Nat) (acc : List CdoEvent) (cdo1 : XPlmiCdo) (sz : Nat)
    (evs : List CdoEvent) (hne : bufLen ≠ 0)
    (hd : (if cdo.CmdState = XPLMI_CMD_STATE_RESUME then
             XPlmi_CdoCmdResume env cdo buf bufLen
           else XPlmi_CdoCmdExecute env cdo buf bufLen) = (XST_SUCCESS, cdo1, sz, evs))
    (hend : cdo1.CmdEndDetected = false) (hbl : cdo1.Cmd.BreakLength ≠ 0)
    (hlt : cdo1.Cmd.BreakLength < cdo1.ProcessedCdoLen) :
    XPlmi_ProcessCdoLoop env sld (fuel + 1) cdo buf bufLen acc =
      some (XPLMI_INVALID_BREAK_LENGTH, orDeferred cdo1, acc ++ evs) := by
  simp only [XPlmi_ProcessCdoLoop, if_neg hne, hd]
  simp [orDeferred, hend, hbl, hlt]

theorem loop_step_break_within (env : CdoEnv) (sld : Bool) (fuel : Nat) (cdo : XPlmiCdo)
    (buf : List Nat) (bufLen : Nat) (acc : List CdoEvent) (cdo1 : XPlmiCdo) (sz : Nat)
    (evs : List CdoEvent) (hne : bufLen ≠ 0)
    (hd : (if cdo.CmdState = XPLMI_CMD_STATE_RESUME then
             XPlmi_CdoCmdResume env cdo buf bufLen
           else XPlmi_CdoCmdExecute env cdo buf bufLen) = (XST_SUCCESS, cdo1, sz, evs))
    (hend : cdo1.CmdEndDetected = false) (hbl : cdo1.Cmd.BreakLength ≠ 0)
    (hge : ¬cdo1.Cmd.BreakLength < cdo1.ProcessedCdoLen)
    (hin : sz + (cdo1.Cmd.BreakLength - cdo1.ProcessedCdoLen) < bufLen) :
    XPlmi_ProcessCdoLoop env sld (fuel + 1) cdo buf bufLen acc =
      XPlmi_ProcessCdoLoop env sld fuel
        { orDeferred cdo1 with
          ProcessedCdoLen := cdo1.Cmd.BreakLength
          Cmd := { cdo1.Cmd with BreakLength := 0 } }
        (buf.drop (sz + (cdo1.Cmd.BreakLength - cdo1.ProcessedCdoLen)))
        (sub32 bufLen (sz + (cdo1.Cmd.BreakLength - cdo1.ProcessedCdoLen)))
        (acc ++ evs) := by
  simp only [XPlmi_ProcessCdoLoop, if_neg hne, hd]
  simp [orDeferred, hend, hbl, hge, hin]

theorem loop_step_break_beyond (env : CdoEnv) (sld : Bool) (fuel : Nat) (cdo : XPlmiCdo)
    (buf : List Nat) (bufLen : Nat) (acc : List CdoEvent) (cdo1 : XPlmiCdo) (sz : Nat)
    (evs : List CdoEvent) (hne : bufLen ≠ 0)
    (hd : (if cdo.CmdState = XPLMI_CMD_STATE_RESUME then
             XPlmi_CdoCmdResume env cdo buf bufLen
           else XPlmi_CdoCmdExecute env cdo buf bufLen) = (XST_SUCCESS, cdo1, sz, evs))
    (hend : cdo1.CmdEndDetected = false) (hbl : cdo1.Cmd.BreakLength ≠ 0)
    (hge : ¬cdo1.Cmd.BreakLength < cdo1.ProcessedCdoLen)
    (hout : ¬sz + (cdo1.Cmd.BreakLength - cdo1.ProcessedCdoLen) < bufLen) :
    XPlmi_ProcessCdoLoop env sld (fuel + 1) cdo buf bufLen acc =
      some (XST_SUCCESS,
        { orDeferred cdo1 with
          ProcessedCdoLen := cdo1.ProcessedCdoLen + sub32 bufLen sz },
        acc ++ evs) := by
  simp only [XPlmi_ProcessCdoLoop, if_neg hne, hd]
  simp [orDeferred, hend, hbl, hge, hout]

theorem loop_step_lockdown_continue (env : CdoEnv) (fuel : Nat) (cdo : XPlmiCdo)
    (buf : List Nat) (bufLen : Nat) (acc : List CdoEvent) (st : Nat) (cdo1 : XPlmiCdo)
    (sz : Nat) (evs : List CdoEvent) (hne : bufLen ≠ 0)
    (hd : (if cdo.CmdState = XPLMI_CMD_STATE_RESUME then
             XPlmi_CdoCmdResume env cdo buf bufLen
           else XPlmi_CdoCmdExecute env cdo buf bufLen) = (st, cdo1, sz, evs))
    (hst : st ≠ XST_SUCCESS)
    (hend : cdo1.CmdEndDetected = false) (hbl : cdo1.Cmd.BreakLength = 0) :
    XPlmi_ProcessCdoLoop env true (fuel + 1) cdo buf bufLen acc =
      XPlmi_ProcessCdoLoop env true fuel (orDeferred cdo1) (buf.drop sz) (sub32 bufLen sz)
        (acc ++ evs ++ [CdoEvent.errMgr st]) := by
  simp only [XPlmi_ProcessCdoLoop, if_neg hne, hd]
  simp [orDeferred, hst, hend, hbl]

/-! ## Single-step characterizations of the dispatch functions -/

theorem cdoCmdExecute_end (env : CdoEnv) (cdo : XPlmiCdo) (buf : List Nat) (bufLen : Nat)
    (h0 : buf.getD 0 0 = XPLMI_CMD_END) :
    XPlmi_CdoCmdExecute env cdo buf bufLen =
      (XST_SUCCESS, { cdo with CmdEndDetected := true }, 0, []) := by
  unfold XPlmi_CdoCmdExecute
  rw [if_pos h0]

theorem cdoCmdExecute_stitch (env : CdoEnv) (cdo : XPlmiCdo) (buf : List Nat) (bufLen : Nat)
    (h0 : buf.getD 0 0 ≠ XPLMI_CMD_END)
    (hsz : bufLen < XPlmi_CmdSize buf bufLen) (h8 : bufLen < XPLMI_CMD_LEN_TEMPBUF)
    (hcpy : env.smemCpyStatus = XST_SUCCESS) :
    XPlmi_CdoCmdExecute env cdo buf bufLen =
      (XST_SUCCESS,
       { cdo with
         Cmd := { cdo.Cmd with Len := XPlmi_CmdSize buf bufLen }
         TempCmdBuf := buf.take bufLen
         CopiedCmdLen := bufLen },
       bufLen, []) := by
  unfold XPlmi_CdoCmdExecute
  rw [if_neg h0]
  simp only []
  rw [if_pos ⟨hsz, h8⟩, if_neg (by simp [hcpy])]

theorem cdoCmdExecute_stitch_fail (env : CdoEnv) (cdo : XPlmiCdo) (buf : List Nat)
    (bufLen : Nat) (h0 : buf.getD 0 0 ≠ XPLMI_CMD_END)
    (hsz : bufLen < XPlmi_CmdSize buf bufLen) (h8 : bufLen < XPLMI_CMD_LEN_TEMPBUF)
    (hcpy : env.smemCpyStatus ≠ XST_SUCCESS) :
    XPlmi_CdoCmdExecute env cdo buf bufLen =
      (XPLMI_ERR_MEMCPY_CMD_EXEC,
       { cdo with Cmd := { cdo.Cmd with Len := XPlmi_CmdSize buf bufLen } },
       XPlmi_CmdSize buf bufLen, []) := by
  unfold XPlmi_CdoCmdExecute
  rw [if_neg h0]
  simp only []
  rw [if_pos ⟨hsz, h8⟩, if_pos hcpy]
  rfl

theorem cdoCmdExecute_fail (env : CdoEnv) (cdo : XPlmiCdo) (buf : List Nat) (bufLen : Nat)
    (st : Nat) (cmd4 : XPlmi_Cmd)
    (h0 : buf.getD 0 0 ≠ XPLMI_CMD_END)
    (hns : ¬(bufLen < XPlmi_CmdSize buf bufLen ∧ bufLen < XPLMI_CMD_LEN_TEMPBUF))
    (henv : XPlmi_CmdExecute env (execCmdView cdo buf bufLen) = (st, cmd4))
    (hst : st ≠ XST_SUCCESS) :
    XPlmi_CdoCmdExecute env cdo buf bufLen =
      (st,
       { cdo with
         CmdState :=
           if bufLen < XPlmi_CmdSize buf bufLen then XPLMI_CMD_STATE_RESUME else cdo.CmdState
         Cmd := cmd4 },
       execSize1 buf bufLen, [CdoEvent.dispatch false (execCmdView cdo buf bufLen)]) := by
  unfold XPlmi_CdoCmdExecute
  rw [if_neg h0]
  simp only []
  rw [if_neg hns]
  unfold execCmdView execSize1 at henv
  rw [henv]
  simp [hst, execCmdView, execSize1]

theorem cdoCmdExecute_ok (env : CdoEnv) (cdo : XPlmiCdo) (buf : List Nat) (bufLen : Nat)
    (cmd4 : XPlmi_Cmd)
    (h0 : buf.getD 0 0 ≠ XPLMI_CMD_END)
    (hns : ¬(bufLen < XPlmi_CmdSize buf bufLen ∧ bufLen < XPLMI_CMD_LEN_TEMPBUF))
    (henv : XPlmi_CmdExecute env (execCmdView cdo buf bufLen) = (XST_SUCCESS, cmd4))
    (hkey : ¬cmd4.Len % MOD32 = sub32 cmd4.PayloadLen 1) :
    XPlmi_CdoCmdExecute env cdo buf bufLen =
      (XST_SUCCESS,
       { cdo with
         CmdState :=
           if bufLen < XPlmi_CmdSize buf bufLen then XPLMI_CMD_STATE_RESUME else cdo.CmdState
         Cmd := cmd4
         ProcessedCdoLen := cdo.ProcessedCdoLen + execSize1 buf bufLen },
       execSize1 buf bufLen, [CdoEvent.dispatch false (execCmdView cdo buf bufLen)]) := by
  unfold XPlmi_CdoCmdExecute
  rw [if_neg h0]
  simp only []
  rw [if_neg hns]
  unfold execCmdView execSize1 at henv
  rw [henv]
  simp [hkey, execCmdView, execSize1]

theorem cdoCmdResume_eq (env : CdoEnv) (cdo : XPlmiCdo) (buf : List Nat) (bufLen : Nat)
    (st : Nat) (cmd2 : XPlmi_Cmd)
    (hres : XPlmi_CmdResume env (resumeCmdView cdo buf bufLen) = (st, cmd2)) :
    XPlmi_CdoCmdResume env cdo buf bufLen =
      (st,
       { cdo with
         CmdState :=
           if add32 cdo.Cmd.ProcessedLen bufLen < cdo.Cmd.Len then cdo.CmdState
           else XPLMI_CMD_STATE_START
         Cmd := cmd2
         ProcessedCdoLen := cdo.ProcessedCdoLen + resumePayloadLen cdo bufLen },
       resumePayloadLen cdo bufLen, [CdoEvent.dispatch true (resumeCmdView cdo buf bufLen)]) := by
  unfold XPlmi_CdoCmdResume
  simp only []
  unfold resumeCmdView resumePayloadLen at hres
  rw [hres]
  simp [resumeCmdView, resumePayloadLen]

/-! ## Entry-path characterizations of `XPlmi_ProcessCdoRest` -/

theorem noclamp_of_le (st : XPlmiCdo)
    (h : st.BufLen + st.ProcessedCdoLen + st.CopiedCmdLen ≤ st.CdoLen)
    (hb : st.CdoLen < MOD32) :
    ¬st.CdoLen < add32 (add32 st.BufLen st.ProcessedCdoLen) st.CopiedCmdLen := by
  rw [add32_eq st.BufLen st.ProcessedCdoLen (by omega)]
  rw [add32_eq _ _ (by omega)]
  omega

theorem processCdoRest_plain (env : CdoEnv) (sld : Bool) (st : XPlmiCdo) (bufPtr : List Nat)
    (hcl : ¬st.CdoLen < add32 (add32 st.BufLen st.ProcessedCdoLen) st.CopiedCmdLen)
    (hend : st.CmdEndDetected = false) (hcp : st.CopiedCmdLen = 0)
    (hbl : st.Cmd.BreakLength = 0) :
    XPlmi_ProcessCdoRest env sld st bufPtr =
      XPlmi_ProcessCdoLoop env sld st.BufLen st bufPtr st.BufLen [] := by
  unfold XPlmi_ProcessCdoRest
  simp only [if_neg hcl]
  simp [hend, hcp, hbl]

theorem processCdoRest_merge (env : CdoEnv) (sld : Bool) (st : XPlmiCdo) (bufPtr : List Nat)
    (hcl : ¬st.CdoLen < add32 (add32 st.BufLen st.ProcessedCdoLen) st.CopiedCmdLen)
    (hend : st.CmdEndDetected = false) (hcp : st.CopiedCmdLen ≠ 0)
    (hbl : st.Cmd.BreakLength = 0) :
    XPlmi_ProcessCdoRest env sld st bufPtr =
      XPlmi_ProcessCdoLoop env sld (st.BufLen + st.CopiedCmdLen)
        { st with CopiedCmdLen := 0 } (st.TempCmdBuf ++ bufPtr)
        (st.BufLen + st.CopiedCmdLen) [] := by
  unfold XPlmi_ProcessCdoRest
  simp only [if_neg hcl]
  simp [hend, hcp, hbl]

theorem processCdoRest_break_beyond (env : CdoEnv) (sld : Bool) (st : XPlmiCdo)
    (bufPtr : List Nat)
    (hcl : ¬st.CdoLen < add32 (add32 st.BufLen st.ProcessedCdoLen) st.CopiedCmdLen)
    (hend : st.CmdEndDetected = false) (hcp : st.CopiedCmdLen = 0)
    (hbl : st.Cmd.BreakLength ≠ 0)
    (hbeyond : st.BufLen ≤ sub32 st.Cmd.BreakLength st.ProcessedCdoLen) :
    XPlmi_ProcessCdoRest env sld st bufPtr =
      some (XST_SUCCESS, { st with ProcessedCdoLen := st.ProcessedCdoLen + st.BufLen }, []) := by
  unfold XPlmi_ProcessCdoRest
  simp only [if_neg hcl]
  simp [hend, hcp, hbl, hbeyond]

theorem processCdoRest_break_within (env : CdoEnv) (sld : Bool) (st : XPlmiCdo)
    (bufPtr : List Nat)
    (hcl : ¬st.CdoLen < add32 (add32 st.BufLen st.ProcessedCdoLen) st.CopiedCmdLen)
    (hend : st.CmdEndDetected = false) (hcp : st.CopiedCmdLen = 0)
    (hbl : st.Cmd.BreakLength ≠ 0)
    (hwithin : sub32 st.Cmd.BreakLength st.ProcessedCdoLen < st.BufLen) :
    XPlmi_ProcessCdoRest env sld st bufPtr =
      XPlmi_ProcessCdoLoop env sld
        (st.BufLen - sub32 st.Cmd.BreakLength st.ProcessedCdoLen)
        { st with
          ProcessedCdoLen := st.ProcessedCdoLen + sub32 st.Cmd.BreakLength st.ProcessedCdoLen
          Cmd := { st.Cmd with BreakLength := 0 } }
        (bufPtr.drop (sub32 st.Cmd.BreakLength st.ProcessedCdoLen))
        (st.BufLen - sub32 st.Cmd.BreakLength st.ProcessedCdoLen) [] := by
  unfold XPlmi_ProcessCdoRest
  simp only [if_neg hcl]
  simp [hend, hcp, hbl, Nat.not_le.mpr hwithin]

/-! ## Claim C7 — the InvalidBreakLength check

The in-loop consultation (xplmi_cdo.c lines 482-486) does fail with
`XPLMI_INVALID_BREAK_LENGTH` when the target is behind, but the pre-loop
consultation for a target carried over from a previous chunk (lines
436-443) performs no such check: `BreakLength - ProcessedCdoLen` wraps
around, the chunk is skipped and the call returns success. -/

/-- C7 counterexample: a carried-over break target (1) strictly below
`ProcessedCdoLen` (5) does not make the call fail; the call returns
`XST_SUCCESS`, skips the whole two-word chunk and leaves the target
set. -/
theorem c7_invalid_break_counterexample :
    XPlmi_ProcessCdo idEnv false breakBehindSt =
      some (XST_SUCCESS, { breakBehindSt with ProcessedCdoLen := 7 }, []) ∧
    breakBehindSt.Cmd.BreakLength = 1 ∧ breakBehindSt.ProcessedCdoLen = 5 ∧
    (XST_SUCCESS : Nat) ≠ XPLMI_INVALID_BREAK_LENGTH := by
  refine ⟨?_, by decide, by decide, by decide⟩
  decide

/-- C7 amended: the fatal `InvalidBreakLength` check happens exactly at
the in-loop consultation after a dispatch — whenever the break target
set by the just-dispatched command is nonzero and strictly below
`ProcessedCdoLen`, the call fails with `XPLMI_INVALID_BREAK_LENGTH`.
The pre-loop consultation of a break target carried over from a
previous chunk performs no such check: with the target strictly below
`ProcessedCdoLen` the wrapped remaining distance exceeds the chunk, so
the call skips the whole chunk, returns success, and leaves the target
set. -/
theorem c7_invalid_break_check :
    (∀ (env : CdoEnv) (sld : Bool) (fuel : Nat) (cdo : XPlmiCdo) (buf : List Nat)
       (bufLen : Nat) (acc : List CdoEvent) (cdo1 : XPlmiCdo) (sz : Nat)
       (evs : List CdoEvent),
      bufLen ≠ 0 →
      (if cdo.CmdState = XPLMI_CMD_STATE_RESUME then
         XPlmi_CdoCmdResume env cdo buf bufLen
       else XPlmi_CdoCmdExecute env cdo buf bufLen) = (XST_SUCCESS, cdo1, sz, evs) →
      cdo1.CmdEndDetected = false → cdo1.Cmd.BreakLength ≠ 0 →
      cdo1.Cmd.BreakLength < cdo1.ProcessedCdoLen →
      XPlmi_ProcessCdoLoop env sld (fuel + 1) cdo buf bufLen acc =
        some (XPLMI_INVALID_BREAK_LENGTH, orDeferred cdo1, acc ++ evs)) ∧
    (∀ (env : CdoEnv) (sld : Bool) (st : XPlmiCdo),
      st.Cdo1stChunk = false → st.CmdEndDetected = false → st.CopiedCmdLen = 0 →
      st.Cmd.BreakLength ≠ 0 → st.Cmd.BreakLength < st.ProcessedCdoLen →
      st.BufLen + st.ProcessedCdoLen + st.CopiedCmdLen ≤ st.CdoLen → st.CdoLen < MOD32 →
      XPlmi_ProcessCdo env sld st =
        some (XST_SUCCESS,
          { st with ProcessedCdoLen := st.ProcessedCdoLen + st.BufLen }, [])) := by
  constructor
  · intro env sld fuel cdo buf bufLen acc cdo1 sz evs hne hd hend hbl hlt
    exact loop_step_break_invalid env sld fuel cdo buf bufLen acc cdo1 sz evs hne hd hend hbl hlt
  · intro env sld st h1st hend hcp hbl hlt hle hb32
    rw [processCdo_notfirst env sld st h1st]
    apply processCdoRest_break_beyond env sld st st.BufPtr
      (noclamp_of_le st hle hb32) hend hcp hbl
    have hp32 : st.ProcessedCdoLen < MOD32 := by omega
    rw [sub32_underflow st.Cmd.BreakLength st.ProcessedCdoLen hlt hp32]
    omega

theorem c7_invalid_break_check_witness :
    XPlmi_ProcessCdo idEnv true breakBehindSt =
      some (XST_SUCCESS, { breakBehindSt with ProcessedCdoLen := 7 }, []) := by
  have h := c7_invalid_break_check.2 idEnv true breakBehindSt
    (by decide) (by decide) (by decide) (by decide) (by decide) (by decide) (by decide)
  simpa using h

/-! ## Claim C4 — lockdown continuation -/

/-- C4 counterexample: with the lockdown predicate true and both
handlers failing, the call over one complete one-payload-word command,
one zero-payload command and END finishes with success, but
`ProcessedCdoLen` never advances past either failing command (it stays
0, not 2 or 3) and `DeferredError` stays false.  Moreover a stitch-copy
failure is fatal only in normal mode: under lockdown the error is
reported and the loop keeps going with a wrapped view length (modelled
as fuel exhaustion, `none`), rather than aborting with the stitch
error. -/
theorem c4_lockdown_counterexample :
    (XPlmi_ProcessCdo failEnv true lockdownSt).map
        (fun r => (r.1, r.2.1.ProcessedCdoLen, r.2.1.DeferredError)) =
      some (XST_SUCCESS, 0, false) ∧
    (XPlmi_ProcessCdo cpyFailEnv false stitchSt).map (fun r => r.1) =
      some XPLMI_ERR_MEMCPY_CMD_EXEC ∧
    XPlmi_ProcessCdo cpyFailEnv true stitchSt = none := by
  refine ⟨?_, ?_, ?_⟩ <;> decide

/-- C4 amended: with the lockdown predicate true, a handler
execute/resume failure does not abort the call — the failure status is
reported to the external error manager and the loop continues with the
next command, the view advancing by the size computed for the failing
command.  `ProcessedCdoLen` advances past a failing resume by the
consumed payload length, but does not advance for a failing execute
(only the view advances); `DeferredError` is the OR of the handler-set
command flag, nothing more.  Header and checksum failures remain fatal
in both modes; a stitch-copy failure aborts the call only in normal
mode. -/
theorem c4_lockdown_continuation :
    -- lockdown: a dispatch failure is reported and the loop continues
    (∀ (env : CdoEnv) (fuel : Nat) (cdo : XPlmiCdo) (buf : List Nat) (bufLen : Nat)
       (acc : List CdoEvent) (st : Nat) (cdo1 : XPlmiCdo) (sz : Nat) (evs : List CdoEvent),
      bufLen ≠ 0 →
      (if cdo.CmdState = XPLMI_CMD_STATE_RESUME then
         XPlmi_CdoCmdResume env cdo buf bufLen
       else XPlmi_CdoCmdExecute env cdo buf bufLen) = (st, cdo1, sz, evs) →
      st ≠ XST_SUCCESS → cdo1.CmdEndDetected = false → cdo1.Cmd.BreakLength = 0 →
      XPlmi_ProcessCdoLoop env true (fuel + 1) cdo buf bufLen acc =
        XPlmi_ProcessCdoLoop env true fuel (orDeferred cdo1) (buf.drop sz)
          (sub32 bufLen sz) (acc ++ evs ++ [CdoEvent.errMgr st])) ∧
    -- a failing execute does not advance ProcessedCdoLen
    (∀ (env : CdoEnv) (cdo : XPlmiCdo) (buf : List Nat) (bufLen : Nat) (st : Nat)
       (cmd4 : XPlmi_Cmd),
      buf.getD 0 0 ≠ XPLMI_CMD_END →
      ¬(bufLen < XPlmi_CmdSize buf bufLen ∧ bufLen < XPLMI_CMD_LEN_TEMPBUF) →
      XPlmi_CmdExecute env (execCmdView cdo buf bufLen) = (st, cmd4) →
      st ≠ XST_SUCCESS →
      (XPlmi_CdoCmdExecute env cdo buf bufLen).2.1.ProcessedCdoLen =
        cdo.ProcessedCdoLen) ∧
    -- a failing resume still advances ProcessedCdoLen by the consumed payload
    (∀ (env : CdoEnv) (cdo : XPlmiCdo) (buf : List Nat) (bufLen : Nat) (st : Nat)
       (cmd2 : XPlmi_Cmd),
      XPlmi_CmdResume env (resumeCmdView cdo buf bufLen) = (st, cmd2) →
      (XPlmi_CdoCmdResume env cdo buf bufLen).2.1.ProcessedCdoLen =
        cdo.ProcessedCdoLen + resumePayloadLen cdo bufLen) ∧
    -- the deferred-error flag is exactly the OR with the handler-set command flag
    (∀ cdo1 : XPlmiCdo,
      (orDeferred cdo1).DeferredError = (cdo1.DeferredError || cdo1.Cmd.DeferredError)) ∧
    -- header/checksum failures are fatal in both modes
    (∀ (env : CdoEnv) (sld : Bool) (st : XPlmiCdo),
      st.Cdo1stChunk = true → XPlmi_CdoVerifyHeader st ≠ XST_SUCCESS →
      XPlmi_ProcessCdo env sld st = some (XPlmi_CdoVerifyHeader st, st, [])) ∧
    -- a stitch-copy failure aborts the call in normal mode
    (∀ (env : CdoEnv) (fuel : Nat) (cdo : XPlmiCdo) (buf : List Nat) (bufLen : Nat)
       (acc : List CdoEvent),
      bufLen ≠ 0 → cdo.CmdState ≠ XPLMI_CMD_STATE_RESUME →
      buf.getD 0 0 ≠ XPLMI_CMD_END →
      bufLen < XPlmi_CmdSize buf bufLen → bufLen < XPLMI_CMD_LEN_TEMPBUF →
      env.smemCpyStatus ≠ XST_SUCCESS →
      XPlmi_ProcessCdoLoop env false (fuel + 1) cdo buf bufLen acc =
        some (XPLMI_ERR_MEMCPY_CMD_EXEC,
          orDeferred { cdo with Cmd := { cdo.Cmd with Len := XPlmi_CmdSize buf bufLen } },
          acc)) := by
  refine ⟨?_, ?_, ?_, ?_, ?_, ?_⟩
  · intro env fuel cdo buf bufLen acc st cdo1 sz evs hne hd hst hend hbl
    exact loop_step_lockdown_continue env fuel cdo buf bufLen acc st cdo1 sz evs hne hd hst
      hend hbl
  · intro env cdo buf bufLen st cmd4 h0 hns henv hst
    rw [cdoCmdExecute_fail env cdo buf bufLen st cmd4 h0 hns henv hst]
  · intro env cdo buf bufLen st cmd2 hres
    rw [cdoCmdResume_eq env cdo buf bufLen st cmd2 hres]
  · intro cdo1
    rfl
  · intro env sld st hfirst hv
    exact processCdo_first_fail env sld st hfirst hv
  · intro env fuel cdo buf bufLen acc hne hsr h0 hsz h8 hcpy
    have hd :
        (if cdo.CmdState = XPLMI_CMD_STATE_RESUME then
           XPlmi_CdoCmdResume env cdo buf bufLen
         else XPlmi_CdoCmdExecute env cdo buf bufLen) =
          (XPLMI_ERR_MEMCPY_CMD_EXEC,
           { cdo with Cmd := { cdo.Cmd with Len := XPlmi_CmdSize buf bufLen } },
           XPlmi_CmdSize buf bufLen, []) := by
      rw [if_neg hsr]
      exact cdoCmdExecute_stitch_fail env cdo buf bufLen h0 hsz h8 hcpy
    have h := loop_step_error_stop env fuel cdo buf bufLen acc XPLMI_ERR_MEMCPY_CMD_EXEC
      { cdo with Cmd := { cdo.Cmd with Len := XPlmi_CmdSize buf bufLen } }
      (XPlmi_CmdSize buf bufLen) [] hne hd (by decide)
    simpa using h

theorem c4_lockdown_continuation_witness :
    XPlmi_ProcessCdoLoop failEnv true 4 lockdownSt lockdownSt.BufPtr 4 [] =
      XPlmi_ProcessCdoLoop failEnv true 3
        (orDeferred ((XPlmi_CdoCmdExecute failEnv lockdownSt lockdownSt.BufPtr 4).2.1))
        (lockdownSt.BufPtr.drop 2) (sub32 4 2)
        ([] ++ (XPlmi_CdoCmdExecute failEnv lockdownSt lockdownSt.BufPtr 4).2.2.2 ++
          [CdoEvent.errMgr XST_FAILURE]) := by
  have h := c4_lockdown_continuation.1 failEnv 3 lockdownSt lockdownSt.BufPtr 4 []
    XST_FAILURE (XPlmi_CdoCmdExecute failEnv lockdownSt lockdownSt.BufPtr 4).2.1 2
    (XPlmi_CdoCmdExecute failEnv lockdownSt lockdownSt.BufPtr 4).2.2.2
    (by decide) (by rw [if_neg (by decide)]; decide) (by decide) (by decide) (by decide)
  exact h

theorem runChunks_cons_ok (env : CdoEnv) (sld : Bool) (st : XPlmiCdo) (c : List Nat)
    (cs : List (List Nat)) (acc : List CdoEvent) (r : Nat × XPlmiCdo × List CdoEvent)
    (h : XPlmi_FeedChunk env sld st c = some r) (hst : r.1 = XST_SUCCESS) :
    XPlmi_RunChunks env sld st (c :: cs) acc =
      XPlmi_RunChunks env sld r.2.1 cs (acc ++ r.2.2) := by
  simp only [XPlmi_RunChunks, h]
  rw [if_pos hst]

theorem runChunks_cons_err (env : CdoEnv) (sld : Bool) (st : XPlmiCdo) (c : List Nat)
    (cs : List (List Nat)) (acc : List CdoEvent) (r : Nat × XPlmiCdo × List CdoEvent)
    (h : XPlmi_FeedChunk env sld st c = some r) (hst : r.1 ≠ XST_SUCCESS) :
    XPlmi_RunChunks env sld st (c :: cs) acc = some (r.1, r.2.1, acc ++ r.2.2) := by
  simp only [XPlmi_RunChunks, h]
  rw [if_neg hst]

/-! ## Claim C2 — break semantics -/

theorem processCdo_break_skip (env : CdoEnv) (sld : Bool) (st : XPlmiCdo)
    (h1st : st.Cdo1stChunk = false) (hend : st.CmdEndDetected = false)
    (hcp : st.CopiedCmdLen = 0) (hbl : st.Cmd.BreakLength ≠ 0)
    (hTge : st.ProcessedCdoLen ≤ st.Cmd.BreakLength)
    (hblb : st.Cmd.BreakLength < MOD32)
    (hbeyond : st.ProcessedCdoLen + st.BufLen ≤ st.Cmd.BreakLength)
    (hle : st.BufLen + st.ProcessedCdoLen ≤ st.CdoLen) (hb32 : st.CdoLen < MOD32) :
    XPlmi_ProcessCdo env sld st =
      some (XST_SUCCESS, { st with ProcessedCdoLen := st.ProcessedCdoLen + st.BufLen }, []) := by
  rw [processCdo_notfirst env sld st h1st]
  apply processCdoRest_break_beyond env sld st st.BufPtr
    (noclamp_of_le st (by omega) hb32) hend hcp hbl
  rw [sub32_eq st.Cmd.BreakLength st.ProcessedCdoLen hTge hblb]
  omega

theorem runChunks_break_skip (env : CdoEnv) (sld : Bool) :
    ∀ (chunks : List (List Nat)) (st : XPlmiCdo) (acc : List CdoEvent),
      st.Cdo1stChunk = false → st.CmdEndDetected = false → st.CopiedCmdLen = 0 →
      st.Cmd.BreakLength ≠ 0 →
      st.ProcessedCdoLen + (chunks.map List.length).sum ≤ st.Cmd.BreakLength →
      st.Cmd.BreakLength ≤ st.CdoLen → st.CdoLen < MOD32 →
      (XPlmi_RunChunks env sld st chunks acc).map
          (fun r => (r.1, r.2.1.ProcessedCdoLen, r.2.1.Cmd.BreakLength, r.2.2)) =
        some (XST_SUCCESS,
          st.ProcessedCdoLen + (chunks.map List.length).sum, st.Cmd.BreakLength, acc)
  | [], st, acc, h1st, hend, hcp, hbl, hsum, hbcdo, hb32 => by
    simp [XPlmi_RunChunks]
  | c :: cs, st, acc, h1st, hend, hcp, hbl, hsum, hbcdo, hb32 => by
    simp only [List.map_cons, List.sum_cons] at hsum
    have hskip := processCdo_break_skip env sld { st with BufPtr := c, BufLen := c.length }
      h1st hend hcp hbl
      (show st.ProcessedCdoLen ≤ st.Cmd.BreakLength by omega)
      (show st.Cmd.BreakLength < MOD32 by omega)
      (show st.ProcessedCdoLen + c.length ≤ st.Cmd.BreakLength by omega)
      (show c.length + st.ProcessedCdoLen ≤ st.CdoLen by omega)
      hb32
    have hrec := runChunks_break_skip env sld cs
      { st with
        BufPtr := c
        BufLen := c.length
        ProcessedCdoLen := st.ProcessedCdoLen + c.length } acc
      h1st hend hcp hbl
      (show st.ProcessedCdoLen + c.length + (cs.map List.length).sum ≤
        st.Cmd.BreakLength by omega)
      hbcdo hb32
    rw [runChunks_cons_ok env sld st c cs acc _ hskip rfl]
    simp only [List.append_nil]
    rw [show st.ProcessedCdoLen + c.length + (cs.map List.length).sum =
        st.ProcessedCdoLen + (c.length + (cs.map List.length).sum) from by omega] at hrec
    exact hrec

/-- C2: with a pending break target `T` carried in `Cmd.BreakLength` at
call entry (set by a handler mid-stream in a previous chunk), no command
before `T` is dispatched and dispatch resumes exactly at `T`:
(i) when `T` lies at or beyond the end of the current view, the call
dispatches zero commands, advances `ProcessedCdoLen` by the full
remaining view length, and leaves the target set for the next call —
and so does any sequence of chunks lying entirely before `T`;
(ii) when `T` lies within the current view, `ProcessedCdoLen` and the
view advance directly to `T`, the target is cleared, and the call
continues as the normal dispatch loop from that position within the
same call. -/
theorem c2_break_semantics (env : CdoEnv) (sld : Bool) (st : XPlmiCdo)
    (h1st : st.Cdo1stChunk = false) (hend : st.CmdEndDetected = false)
    (hcp : st.CopiedCmdLen = 0) (hbl : st.Cmd.BreakLength ≠ 0)
    (hTge : st.ProcessedCdoLen ≤ st.Cmd.BreakLength)
    (hblb : st.Cmd.BreakLength < MOD32)
    (hle : st.BufLen + st.ProcessedCdoLen ≤ st.CdoLen) (hb32 : st.CdoLen < MOD32) :
    (st.ProcessedCdoLen + st.BufLen ≤ st.Cmd.BreakLength →
      XPlmi_ProcessCdo env sld st =
        some (XST_SUCCESS,
          { st with ProcessedCdoLen := st.ProcessedCdoLen + st.BufLen }, [])) ∧
    (∀ chunks acc,
      st.ProcessedCdoLen + (chunks.map List.length).sum ≤ st.Cmd.BreakLength →
      st.Cmd.BreakLength ≤ st.CdoLen →
      (XPlmi_RunChunks env sld st chunks acc).map
          (fun r => (r.1, r.2.1.ProcessedCdoLen, r.2.1.Cmd.BreakLength, r.2.2)) =
        some (XST_SUCCESS,
          st.ProcessedCdoLen + (chunks.map List.length).sum, st.Cmd.BreakLength, acc)) ∧
    (st.Cmd.BreakLength < st.ProcessedCdoLen + st.BufLen →
      XPlmi_ProcessCdo env sld st =
        XPlmi_ProcessCdoLoop env sld
          (st.BufLen - (st.Cmd.BreakLength - st.ProcessedCdoLen))
          { st with
            ProcessedCdoLen := st.Cmd.BreakLength
            Cmd := { st.Cmd with BreakLength := 0 } }
          (st.BufPtr.drop (st.Cmd.BreakLength - st.ProcessedCdoLen))
          (st.BufLen - (st.Cmd.BreakLength - st.ProcessedCdoLen)) []) := by
  refine ⟨?_, ?_, ?_⟩
  · intro hbeyond
    exact processCdo_break_skip env sld st h1st hend hcp hbl hTge hblb hbeyond hle hb32
  · intro chunks acc hsum hbcdo
    exact runChunks_break_skip env sld chunks st acc h1st hend hcp hbl hsum hbcdo hb32
  · intro hwithin
    rw [processCdo_notfirst env sld st h1st]
    have hsub : sub32 st.Cmd.BreakLength st.ProcessedCdoLen =
        st.Cmd.BreakLength - st.ProcessedCdoLen := sub32_eq _ _ hTge hblb
    have h := processCdoRest_break_within env sld st st.BufPtr
      (noclamp_of_le st (by omega) hb32) hend hcp hbl (by omega)
    rw [hsub] at h
    rw [show st.ProcessedCdoLen + (st.Cmd.BreakLength - st.ProcessedCdoLen) =
        st.Cmd.BreakLength from by omega] at h
    exact h

theorem c2_break_semantics_witness :
    XPlmi_ProcessCdo idEnv false breakAheadSt =
      some (XST_SUCCESS, { breakAheadSt with ProcessedCdoLen := 3 }, []) := by
  have h := (c2_break_semantics idEnv false breakAheadSt
    (by decide) (by decide) (by decide) (by decide) (by decide) (by decide)
    (by decide) (by decide)).1 (by decide)
  simpa using h

/-! ## Claim C3 — partial execution and resume -/

theorem maskShift_eq (x : Nat) :
    (x &&& XPLMI_CMD_LEN_MASK) >>> 16 =
      (x >>> XPLMI_SHORT_CMD_LEN_SHIFT) &&& XPLMI_MAX_SHORT_CMD_LEN := by
  apply Nat.eq_of_testBit_eq
  intro i
  simp only [Nat.testBit_shiftRight, Nat.testBit_and, XPLMI_CMD_LEN_MASK,
    XPLMI_SHORT_CMD_LEN_SHIFT, XPLMI_MAX_SHORT_CMD_LEN]
  by_cases hi : i < 8
  · interval_cases i <;>
      · rw [show Nat.testBit 16711680 _ = true from by decide,
          show Nat.testBit 255 _ = true from by decide]
  · have h1 : Nat.testBit 255 i = false := Nat.testBit_eq_false_of_lt (by
      calc (255 : Nat) < 2 ^ 8 := by omega
      _ ≤ 2 ^ i := Nat.pow_le_pow_right (by omega) (by omega))
    have h2 : Nat.testBit 16711680 (16 + i) = false := Nat.testBit_eq_false_of_lt (by
      calc (16711680 : Nat) < 2 ^ 24 := by omega
      _ ≤ 2 ^ (16 + i) := Nat.pow_le_pow_right (by omega) (by omega))
    rw [h1, h2]

theorem cmdSize_char (buf : List Nat) (bufLen : Nat) (h1 : 1 ≤ bufLen) :
    XPlmi_CmdSize buf bufLen =
      if (buf.getD 0 0 >>> XPLMI_SHORT_CMD_LEN_SHIFT) &&& XPLMI_MAX_SHORT_CMD_LEN =
          XPLMI_MAX_SHORT_CMD_LEN then
        XPLMI_LONG_CMD_HDR_LEN +
          min (if XPLMI_LONG_CMD_HDR_LEN ≤ bufLen then buf.getD 1 0
               else XPLMI_MAX_SHORT_CMD_LEN)
            XPLMI_MAX_LONG_CMD_LEN
      else 1 + ((buf.getD 0 0 >>> XPLMI_SHORT_CMD_LEN_SHIFT) &&& XPLMI_MAX_SHORT_CMD_LEN) := by
  unfold XPlmi_CmdSize
  rw [if_pos h1]
  simp only []
  rw [maskShift_eq]
  rcases eq_or_ne ((buf.getD 0 0 >>> XPLMI_SHORT_CMD_LEN_SHIFT) &&& XPLMI_MAX_SHORT_CMD_LEN)
      XPLMI_MAX_SHORT_CMD_LEN with hs | hs
  · rw [if_pos hs, if_pos hs]
    congr 1
    rcases le_or_lt XPLMI_LONG_CMD_HDR_LEN bufLen with hb | hb
    · rw [if_pos hb, if_pos hb]
      rcases le_or_lt (buf.getD 1 0) XPLMI_MAX_LONG_CMD_LEN with hc | hc
      · rw [if_neg (not_lt.mpr hc), Nat.min_eq_left hc]
      · rw [if_pos hc, Nat.min_eq_right (le_of_lt hc)]
    · rw [if_neg (not_le.mpr hb), if_neg (not_le.mpr hb), hs]
      rw [if_neg (show ¬XPLMI_MAX_LONG_CMD_LEN < XPLMI_MAX_SHORT_CMD_LEN from by decide),
        Nat.min_eq_left (show XPLMI_MAX_SHORT_CMD_LEN ≤ XPLMI_MAX_LONG_CMD_LEN from by decide)]
  · rw [if_neg hs, if_neg hs]

theorem execCmdView_partial_payloadLen (cdo : XPlmiCdo) (buf : List Nat) (bufLen : Nat)
    (hb32 : bufLen < MOD32) (h8 : XPLMI_CMD_LEN_TEMPBUF ≤ bufLen)
    (hsz : bufLen < XPlmi_CmdSize buf bufLen) :
    (execCmdView cdo buf bufLen).PayloadLen = bufLen - cmdHdrLen buf := by
  have h8n : 8 ≤ bufLen := h8
  have hs1 : execSize1 buf bufLen = bufLen := by
    unfold execSize1
    rw [if_pos hsz]
  rw [cmdSize_char buf bufLen (by omega)] at hsz
  unfold execCmdView
  rw [hs1]
  unfold XPlmi_SetupCmd
  simp only []
  unfold cmdHdrLen
  rcases eq_or_ne ((buf.getD 0 0 >>> XPLMI_SHORT_CMD_LEN_SHIFT) &&& XPLMI_MAX_SHORT_CMD_LEN)
      XPLMI_MAX_SHORT_CMD_LEN with hs | hs
  · rw [if_pos hs] at hsz
    rw [if_pos (show XPLMI_LONG_CMD_HDR_LEN ≤ bufLen from by
      show (2 : Nat) ≤ bufLen
      omega)] at hsz
    simp only [if_pos hs]
    have hsub : sub32 bufLen XPLMI_LONG_CMD_HDR_LEN = bufLen - 2 :=
      sub32_eq bufLen XPLMI_LONG_CMD_HDR_LEN (by show (2 : Nat) ≤ bufLen; omega) hb32
    rw [hsub]
    have hgt : bufLen - 2 < buf.getD 1 0 := by
      have hmin : min (buf.getD 1 0) XPLMI_MAX_LONG_CMD_LEN ≤ buf.getD 1 0 :=
        Nat.min_le_left _ _
      have h2 : XPLMI_LONG_CMD_HDR_LEN = 2 := rfl
      omega
    rw [if_pos hgt]
    rfl
  · rw [if_neg hs] at hsz
    simp only [if_neg hs]
    have hsub : sub32 bufLen 1 = bufLen - 1 := sub32_eq bufLen 1 (by omega) hb32
    rw [hsub]
    rw [if_pos (by omega)]

theorem resumePayloadLen_min (cdo : XPlmiCdo) (bufLen : Nat)
    (hrle : cdo.Cmd.ProcessedLen ≤ cdo.Cmd.Len) (hL32 : cdo.Cmd.Len < MOD32)
    (hPB : cdo.Cmd.ProcessedLen + bufLen < MOD32) :
    resumePayloadLen cdo bufLen = min (cdo.Cmd.Len - cdo.Cmd.ProcessedLen) bufLen := by
  unfold resumePayloadLen
  rw [add32_eq cdo.Cmd.ProcessedLen bufLen hPB]
  rcases lt_or_ge (cdo.Cmd.ProcessedLen + bufLen) cdo.Cmd.Len with h | h
  · rw [if_pos h, Nat.min_eq_right (by omega)]
  · rw [if_neg (not_lt.mpr h), sub32_eq _ _ hrle hL32, Nat.min_eq_left (by omega)]

theorem feedChunk_resume (env : CdoEnv) (sld : Bool) (st : XPlmiCdo) (c : List Nat)
    (hres : ∀ cc, env.resume cc = (XST_SUCCESS, cc))
    (h1st : st.Cdo1stChunk = false) (hend : st.CmdEndDetected = false)
    (hcp : st.CopiedCmdLen = 0) (hbl : st.Cmd.BreakLength = 0)
    (hdef : st.Cmd.DeferredError = false)
    (hrs : st.CmdState = XPLMI_CMD_STATE_RESUME)
    (hrle : st.Cmd.ProcessedLen ≤ st.Cmd.Len) (hL32 : st.Cmd.Len < MOD32)
    (hcne : c ≠ [])
    (hcover : st.Cmd.ProcessedLen + c.length ≤ st.Cmd.Len)
    (hcdo : c.length + st.ProcessedCdoLen ≤ st.CdoLen) (hb32 : st.CdoLen < MOD32) :
    ∃ (st2 : XPlmiCdo) (evs : List CdoEvent),
      XPlmi_FeedChunk env sld st c = some (XST_SUCCESS, st2, evs) ∧
      st2.ProcessedCdoLen = st.ProcessedCdoLen + c.length ∧
      st2.CmdState = (if st.Cmd.ProcessedLen + c.length < st.Cmd.Len then
        XPLMI_CMD_STATE_RESUME else XPLMI_CMD_STATE_START) ∧
      st2.Cmd.ProcessedLen = st.Cmd.ProcessedLen + c.length ∧
      st2.Cmd.Len = st.Cmd.Len ∧
      st2.Cmd.BreakLength = 0 ∧ st2.Cmd.DeferredError = false ∧
      st2.Cdo1stChunk = false ∧ st2.CmdEndDetected = false ∧
      st2.CopiedCmdLen = 0 ∧ st2.CdoLen = st.CdoLen ∧
      evs = [CdoEvent.dispatch true (resumeCmdView
        { st with BufPtr := c, BufLen := c.length } c c.length)] := by
  have hpl : resumePayloadLen { st with BufPtr := c, BufLen := c.length } c.length =
      c.length := by
    unfold resumePayloadLen
    rw [add32_eq st.Cmd.ProcessedLen c.length (by omega)]
    rcases lt_or_ge (st.Cmd.ProcessedLen + c.length) st.Cmd.Len with h | h
    · rw [if_pos h]
    · rw [if_neg (not_lt.mpr h), sub32_eq _ _ hrle hL32]
      omega
  have hwrap : XPlmi_CmdResume env
      (resumeCmdView { st with BufPtr := c, BufLen := c.length } c c.length) =
      (XST_SUCCESS,
       { resumeCmdView { st with BufPtr := c, BufLen := c.length } c c.length with
         ProcessedLen :=
           (resumeCmdView { st with BufPtr := c, BufLen := c.length } c c.length).ProcessedLen +
           (resumeCmdView { st with BufPtr := c, BufLen := c.length } c c.length).PayloadLen }) := by
    unfold XPlmi_CmdResume
    rw [hres]
    simp
  have hd := cdoCmdResume_eq env { st with BufPtr := c, BufLen := c.length } c c.length
    XST_SUCCESS _ hwrap
  obtain ⟨n, hn⟩ : ∃ n, c.length = n + 1 := by
    cases c with
    | nil => exact absurd rfl hcne
    | cons w ws => exact ⟨ws.length, rfl⟩
  unfold XPlmi_FeedChunk
  rw [processCdo_notfirst env sld { st with BufPtr := c, BufLen := c.length } h1st]
  rw [processCdoRest_plain env sld { st with BufPtr := c, BufLen := c.length } c
    (noclamp_of_le _ (by simp; omega) hb32) hend hcp hbl]
  rw [show ({ st with BufPtr := c, BufLen := c.length } : XPlmiCdo).BufLen = c.length
    from rfl]
  rw [hn] at hd hpl ⊢
  have hdisp : (if ({ st with BufPtr := c, BufLen := n + 1 } : XPlmiCdo).CmdState =
        XPLMI_CMD_STATE_RESUME then
      XPlmi_CdoCmdResume env { st with BufPtr := c, BufLen := n + 1 } c (n + 1)
    else XPlmi_CdoCmdExecute env { st with BufPtr := c, BufLen := n + 1 } c (n + 1)) =
      XPlmi_CdoCmdResume env { st with BufPtr := c, BufLen := n + 1 } c (n + 1) := by
    rw [if_pos]
    show st.CmdState = XPLMI_CMD_STATE_RESUME
    exact hrs
  rw [loop_step_continue env sld n _ c (n + 1) [] _ _ _ (by omega) (hdisp.trans hd)
    (by exact hend) (by exact hbl)]
  rw [hpl, sub32_self, loop_exit_zero]
  refine ⟨_, _, rfl, ?_, ?_, ?_, ?_, ?_, ?_, ?_, ?_, ?_, ?_, ?_⟩
  · simp [orDeferred, hpl]
  · have haddf : add32 st.Cmd.ProcessedLen (n + 1) = st.Cmd.ProcessedLen + (n + 1) :=
      add32_eq _ _ (by omega)
    simp [orDeferred, hrs, haddf]
  · simp [orDeferred, resumeCmdView, hpl]
  · simp [orDeferred, resumeCmdView]
  · simp [orDeferred, resumeCmdView, hbl]
  · simp [orDeferred, resumeCmdView, hdef]
  · simp [orDeferred, h1st]
  · simp [orDeferred, hend]
  · simp [orDeferred, hcp]
  · simp [orDeferred]
  · simp

theorem runChunks_resume_cover (env : CdoEnv) (sld : Bool)
    (hres : ∀ cc, env.resume cc = (XST_SUCCESS, cc)) :
    ∀ (chunks : List (List Nat)) (st : XPlmiCdo) (acc : List CdoEvent),
      st.Cdo1stChunk = false → st.CmdEndDetected = false → st.CopiedCmdLen = 0 →
      st.Cmd.BreakLength = 0 → st.Cmd.DeferredError = false →
      st.CmdState = XPLMI_CMD_STATE_RESUME →
      st.Cmd.ProcessedLen < st.Cmd.Len → st.Cmd.Len < MOD32 →
      (∀ c ∈ chunks, c ≠ []) →
      st.Cmd.ProcessedLen + (chunks.map List.length).sum = st.Cmd.Len →
      (chunks.map List.length).sum + st.ProcessedCdoLen ≤ st.CdoLen →
      st.CdoLen < MOD32 →
      (XPlmi_RunChunks env sld st chunks acc).map
          (fun r => (r.1, r.2.1.ProcessedCdoLen, r.2.1.CmdState, r.2.1.Cmd.ProcessedLen,
            r.2.1.Cmd.Len)) =
        some (XST_SUCCESS, st.ProcessedCdoLen + (chunks.map List.length).sum,
          XPLMI_CMD_STATE_START, st.Cmd.Len, st.Cmd.Len)
  | [], st, acc, _, _, _, _, _, _, hrl, _, _, hsum, _, _ => by
    simp only [List.map_nil, List.sum_nil] at hsum
    omega
  | c :: cs, st, acc, h1st, hend, hcp, hbl, hdef, hrs, hrl, hL32, hne, hsum, hcdo, hb32 => by
    simp only [List.map_cons, List.sum_cons] at hsum hcdo ⊢
    have hcne : c ≠ [] := hne c (by simp)
    obtain ⟨st2, evs, hfeed, hP, hCS, hPr, hLen2, hBL, hDef, h1st2, hend2, hcp2, hCdo2, _⟩ :=
      feedChunk_resume env sld st c hres h1st hend hcp hbl hdef hrs (le_of_lt hrl) hL32 hcne
        (by omega) (by omega) hb32
    rw [runChunks_cons_ok env sld st c cs acc _ hfeed rfl]
    rcases lt_or_ge (st.Cmd.ProcessedLen + c.length) st.Cmd.Len with hlt | hge
    · have hCS2 : st2.CmdState = XPLMI_CMD_STATE_RESUME := by
        rw [hCS, if_pos hlt]
      have hrec := runChunks_resume_cover env sld hres cs st2 (acc ++ evs) h1st2 hend2 hcp2
        hBL hDef hCS2
        (by rw [hPr, hLen2]; exact hlt)
        (by rw [hLen2]; exact hL32)
        (fun d hd => hne d (by simp [hd]))
        (by rw [hPr, hLen2]; omega)
        (by rw [hP, hCdo2]; omega)
        (by rw [hCdo2]; exact hb32)
      rw [hrec, hP, hLen2]
      simp [Nat.add_assoc]
    · have hcs : cs = [] := by
        cases cs with
        | nil => rfl
        | cons d ds =>
          have hd1 : 0 < d.length := List.length_pos.mpr (hne d (by simp))
          simp only [List.map_cons, List.sum_cons] at hsum
          omega
      subst hcs
      simp only [XPlmi_RunChunks]
      simp only [List.map_cons, List.map_nil, List.sum_cons, List.sum_nil] at hsum
      simp [hP, hCS, not_lt.mpr hge, hPr, hLen2]
      omega

/-- C3: a command whose declared size exceeds the supplied view executes
partially — the execute entry receives the payload words present in the
view (`PayloadLen = view length - header length`), the engine sets
`CmdState = XPLMI_CMD_STATE_RESUME` and advances `ProcessedCdoLen` by
the full view; on each resuming call whose u32 sum
`ProcessedLen + view length` does not wrap (the C compares against that
sum mod 2^32) the engine recomputes the available length as
`min (declared - processed) view` and returns to the idle state exactly
when `processed + available = declared`; and
over the sequence of resuming calls that exactly cover the command's
remainder the stream's `ProcessedCdoLen` advances by exactly that
remainder — no more, no less. -/
theorem c3_resume_correctness :
    (∀ (env : CdoEnv) (cdo : XPlmiCdo) (buf : List Nat) (bufLen : Nat) (cmd4 : XPlmi_Cmd),
      buf.getD 0 0 ≠ XPLMI_CMD_END →
      bufLen < XPlmi_CmdSize buf bufLen → XPLMI_CMD_LEN_TEMPBUF ≤ bufLen → bufLen < MOD32 →
      XPlmi_CmdExecute env (execCmdView cdo buf bufLen) = (XST_SUCCESS, cmd4) →
      ¬cmd4.Len % MOD32 = sub32 cmd4.PayloadLen 1 →
      XPlmi_CdoCmdExecute env cdo buf bufLen =
        (XST_SUCCESS,
         { cdo with
           CmdState := XPLMI_CMD_STATE_RESUME
           Cmd := cmd4
           ProcessedCdoLen := cdo.ProcessedCdoLen + bufLen },
         bufLen, [CdoEvent.dispatch false (execCmdView cdo buf bufLen)]) ∧
      (execCmdView cdo buf bufLen).PayloadLen = bufLen - cmdHdrLen buf) ∧
    (∀ (cdo : XPlmiCdo) (bufLen : Nat),
      cdo.Cmd.ProcessedLen ≤ cdo.Cmd.Len → cdo.Cmd.Len < MOD32 →
      cdo.Cmd.ProcessedLen + bufLen < MOD32 →
      resumePayloadLen cdo bufLen = min (cdo.Cmd.Len - cdo.Cmd.ProcessedLen) bufLen) ∧
    (∀ (env : CdoEnv) (cdo : XPlmiCdo) (buf : List Nat) (bufLen : Nat) (st : Nat)
       (cmd2 : XPlmi_Cmd),
      XPlmi_CmdResume env (resumeCmdView cdo buf bufLen) = (st, cmd2) →
      cdo.CmdState = XPLMI_CMD_STATE_RESUME →
      cdo.Cmd.ProcessedLen ≤ cdo.Cmd.Len → cdo.Cmd.Len < MOD32 →
      cdo.Cmd.ProcessedLen + bufLen < MOD32 →
      ((XPlmi_CdoCmdResume env cdo buf bufLen).2.1.CmdState = XPLMI_CMD_STATE_START ↔
        cdo.Cmd.ProcessedLen + resumePayloadLen cdo bufLen = cdo.Cmd.Len)) ∧
    (∀ (env : CdoEnv) (sld : Bool) (st : XPlmiCdo) (chunks : List (List Nat)),
      (∀ cc, env.resume cc = (XST_SUCCESS, cc)) →
      st.Cdo1stChunk = false → st.CmdEndDetected = false → st.CopiedCmdLen = 0 →
      st.Cmd.BreakLength = 0 → st.Cmd.DeferredError = false →
      st.CmdState = XPLMI_CMD_STATE_RESUME →
      st.Cmd.ProcessedLen < st.Cmd.Len → st.Cmd.Len < MOD32 →
      (∀ c ∈ chunks, c ≠ []) →
      st.Cmd.ProcessedLen + (chunks.map List.length).sum = st.Cmd.Len →
      (chunks.map List.length).sum + st.ProcessedCdoLen ≤ st.CdoLen →
      st.CdoLen < MOD32 →
      (XPlmi_RunChunks env sld st chunks []).map
          (fun r => (r.1, r.2.1.ProcessedCdoLen, r.2.1.CmdState, r.2.1.Cmd.ProcessedLen,
            r.2.1.Cmd.Len)) =
        some (XST_SUCCESS, st.ProcessedCdoLen + (chunks.map List.length).sum,
          XPLMI_CMD_STATE_START, st.Cmd.Len, st.Cmd.Len)) := by
  refine ⟨?_, ?_, ?_, ?_⟩
  · intro env cdo buf bufLen cmd4 h0 hsz h8 hb32 henv hkey
    have hns : ¬(bufLen < XPlmi_CmdSize buf bufLen ∧ bufLen < XPLMI_CMD_LEN_TEMPBUF) := by
      rintro ⟨-, h⟩
      omega
    have h := cdoCmdExecute_ok env cdo buf bufLen cmd4 h0 hns henv hkey
    rw [if_pos hsz] at h
    rw [show execSize1 buf bufLen = bufLen from by unfold execSize1; rw [if_pos hsz]] at h
    exact ⟨h, execCmdView_partial_payloadLen cdo buf bufLen hb32 h8 hsz⟩
  · intro cdo bufLen hrle hL32 hPB
    exact resumePayloadLen_min cdo bufLen hrle hL32 hPB
  · intro env cdo buf bufLen st cmd2 hresq hrs hrle hL32 hPB
    rw [cdoCmdResume_eq env cdo buf bufLen st cmd2 hresq]
    rw [add32_eq cdo.Cmd.ProcessedLen bufLen hPB]
    rcases lt_or_ge (cdo.Cmd.ProcessedLen + bufLen) cdo.Cmd.Len with h | h
    · simp only [if_pos h, hrs]
      rw [show resumePayloadLen cdo bufLen = bufLen from by
        unfold resumePayloadLen
        rw [add32_eq cdo.Cmd.ProcessedLen bufLen hPB, if_pos h]]
      constructor
      · intro hc
        exact absurd hc (by decide)
      · intro hc
        omega
    · simp only [if_neg (not_lt.mpr h)]
      rw [show resumePayloadLen cdo bufLen = sub32 cdo.Cmd.Len cdo.Cmd.ProcessedLen from by
        unfold resumePayloadLen
        rw [add32_eq cdo.Cmd.ProcessedLen bufLen hPB, if_neg (not_lt.mpr h)]]
      rw [sub32_eq _ _ hrle hL32]
      constructor
      · intro _
        omega
      · intro _
        simp
  · intro env sld st chunks hres h1st hend hcp hbl hdef hrs hrl hL32 hne hsum hcdo hb32
    exact runChunks_resume_cover env sld hres chunks st [] h1st hend hcp hbl hdef hrs hrl
      hL32 hne hsum hcdo hb32

theorem c3_resume_correctness_witness :
    (XPlmi_RunChunks idEnv false resumeSt [[1, 2], [3, 4]] []).map
        (fun r => (r.1, r.2.1.ProcessedCdoLen, r.2.1.CmdState, r.2.1.Cmd.ProcessedLen,
          r.2.1.Cmd.Len)) =
      some (XST_SUCCESS, 12, XPLMI_CMD_STATE_START, 10, 10) := by
  have h := c3_resume_correctness.2.2.2 idEnv false resumeSt [[1, 2], [3, 4]]
    (fun cc => rfl) (by decide) (by decide) (by decide) (by decide) (by decide) (by decide)
    (by decide) (by decide) (by decide) (by decide) (by decide) (by decide)
  simpa using h

/-! ## Claim C10 — termination of the dispatch loop

The loop of xplmi_cdo.c lines 453-503 is modelled with fuel; fuel equal
to the view length is shown to suffice, because every iteration that does
not exit consumes at least one word. -/

theorem cmdSize_pos (buf : List Nat) (len : Nat) : 1 ≤ XPlmi_CmdSize buf len := by
  rcases le_or_lt 1 len with h | h
  · rw [cmdSize_char buf len h]
    split
    · have h2 : XPLMI_LONG_CMD_HDR_LEN = 2 := rfl
      omega
    · omega
  · have h0 : len = 0 := by omega
    subst h0
    exact Nat.le.refl

theorem cmdResume_fields (env : CdoEnv) (henv : HandlerKeepsEngineFields env)
    (c : XPlmi_Cmd) :
    (XPlmi_CmdResume env c).2.Len = c.Len ∧
      ((XPlmi_CmdResume env c).2.ProcessedLen = c.ProcessedLen + c.PayloadLen ∨
        (XPlmi_CmdResume env c).2.ProcessedLen = c.ProcessedLen) := by
  obtain ⟨_, _, _, hL, hP, hPl⟩ := henv c
  unfold XPlmi_CmdResume
  simp only []
  by_cases h : (env.resume c).1 = XST_SUCCESS
  · rw [if_pos h]
    refine ⟨hL, Or.inl ?_⟩
    show (env.resume c).2.ProcessedLen + (env.resume c).2.PayloadLen =
      c.ProcessedLen + c.PayloadLen
    rw [hP, hPl]
  · rw [if_neg h]
    exact ⟨hL, Or.inr hP⟩

theorem drop_drop_add (S : List Nat) (q t : Nat) : (S.drop q).drop t = S.drop (q + t) := by
  rw [List.drop_drop]

theorem view_drop (S : List Nat) (q m k : Nat) :
    ((S.drop q).take m).drop k = (S.drop (q + k)).take (m - k) := by
  rw [drop_take_swap, drop_drop_add]

theorem view_length (S : List Nat) (q m : Nat) (h : q + m ≤ S.length) :
    ((S.drop q).take m).length = m := by
  rw [List.length_take, List.length_drop]
  omega

theorem refParse_nil (f : Nat) : RefParse f [] = ([], 0) := by
  cases f <;> rfl

theorem refParse_end (f : Nat) (s : List Nat) (hw : s.getD 0 0 = XPLMI_CMD_END) :
    RefParse f s = ([], 0) := by
  have hne : s.length ≠ 0 := by
    intro h
    rw [List.length_eq_zero] at h
    subst h
    exact absurd hw (by decide)
  cases f with
  | zero => rfl
  | succ f =>
    simp only [RefParse]
    rw [if_neg hne, if_pos hw]

theorem refParse_cons (f : Nat) (s : List Nat) (hne : s.length ≠ 0)
    (hw : s.getD 0 0 ≠ XPLMI_CMD_END) :
    RefParse (f + 1) s =
      ((s.getD 0 0, refLen s) :: (RefParse f (s.drop (refSize s))).1,
        refSize s + (RefParse f (s.drop (refSize s))).2) := by
  simp only [RefParse]
  rw [if_neg hne, if_neg hw]

theorem refSize_pos (s : List Nat) : 1 ≤ refSize s := cmdSize_pos s s.length

theorem refParse_fuel_ge : ∀ (f g : Nat) (s : List Nat), s.length ≤ f → s.length ≤ g →
    RefParse f s = RefParse g s := by
  intro f
  induction f with
  | zero =>
    intro g s hf _
    have h0 : s = [] := List.length_eq_zero.mp (Nat.le_zero.mp hf)
    subst h0
    rw [refParse_nil, refParse_nil]
  | succ f ih =>
    intro g s hf hg
    rcases eq_or_ne s.length 0 with h0 | h0
    · have h0' : s = [] := List.length_eq_zero.mp h0
      subst h0'
      rw [refParse_nil, refParse_nil]
    · rcases eq_or_ne (s.getD 0 0) XPLMI_CMD_END with hw | hw
      · rw [refParse_end (f + 1) s hw, refParse_end g s hw]
      · have hg1 : g = (g - 1) + 1 := by omega
        rw [refParse_cons f s h0 hw, hg1, refParse_cons (g - 1) s h0 hw]
        have hsp := refSize_pos s
        have hd1 : (s.drop (refSize s)).length ≤ f := by
          rw [List.length_drop]
          omega
        have hd2 : (s.drop (refSize s)).length ≤ g - 1 := by
          rw [List.length_drop]
          omega
        rw [ih (g - 1) (s.drop (refSize s)) hd1 hd2]

theorem refSize_of_end (s : List Nat) (h1 : 1 ≤ s.length)
    (hw : s.getD 0 0 = XPLMI_CMD_END) : refSize s = 1 := by
  unfold refSize
  rw [cmdSize_char s s.length h1, hw]
  rw [if_neg (show ¬((XPLMI_CMD_END >>> XPLMI_SHORT_CMD_LEN_SHIFT) &&&
      XPLMI_MAX_SHORT_CMD_LEN = XPLMI_MAX_SHORT_CMD_LEN) from by decide)]
  decide

theorem cmdSize_decomp (buf : List Nat) (len : Nat) (h1 : 1 ≤ len)
    (hs2 : (buf.getD 0 0 >>> XPLMI_SHORT_CMD_LEN_SHIFT) &&& XPLMI_MAX_SHORT_CMD_LEN =
      XPLMI_MAX_SHORT_CMD_LEN → 2 ≤ len)
    (hcap : refLen buf ≤ XPLMI_MAX_LONG_CMD_LEN) :
    XPlmi_CmdSize buf len =
      (if (buf.getD 0 0 >>> XPLMI_SHORT_CMD_LEN_SHIFT) &&& XPLMI_MAX_SHORT_CMD_LEN =
        XPLMI_MAX_SHORT_CMD_LEN then 2 else 1) + refLen buf := by
  rw [cmdSize_char buf len h1]
  unfold refLen at hcap ⊢
  rcases eq_or_ne ((buf.getD 0 0 >>> XPLMI_SHORT_CMD_LEN_SHIFT) &&& XPLMI_MAX_SHORT_CMD_LEN)
      XPLMI_MAX_SHORT_CMD_LEN with hs | hs
  · rw [if_pos hs, if_pos hs, if_pos hs] at *
    rw [if_pos (show XPLMI_LONG_CMD_HDR_LEN ≤ len from hs2 hs)]
    rw [Nat.min_eq_left hcap]
    rfl
  · rw [if_neg hs, if_neg hs, if_neg hs]

theorem getD_zero_take (s : List Nat) (m : Nat) (h1 : 1 ≤ m) :
    (s.take m).getD 0 0 = s.getD 0 0 := getD_take_of_lt s m 0 h1

theorem refLen_take (s : List Nat) (m : Nat) (h1 : 1 ≤ m)
    (hc : 2 ≤ m ∨ (s.getD 0 0 >>> XPLMI_SHORT_CMD_LEN_SHIFT) &&& XPLMI_MAX_SHORT_CMD_LEN ≠
      XPLMI_MAX_SHORT_CMD_LEN) :
    refLen (s.take m) = refLen s := by
  unfold refLen
  rw [getD_zero_take s m h1]
  rcases eq_or_ne ((s.getD 0 0 >>> XPLMI_SHORT_CMD_LEN_SHIFT) &&& XPLMI_MAX_SHORT_CMD_LEN)
      XPLMI_MAX_SHORT_CMD_LEN with hs | hs
  · rw [if_pos hs, if_pos hs]
    rcases hc with h2 | hcon
    · rw [getD_take_of_lt s m 1 (by omega)]
    · exact absurd hs hcon
  · rw [if_neg hs, if_neg hs]

theorem cmdSize_take_eq (s : List Nat) (m : Nat) (h1 : 1 ≤ m) (hms : m ≤ s.length)
    (hc : 2 ≤ m ∨ (s.getD 0 0 >>> XPLMI_SHORT_CMD_LEN_SHIFT) &&& XPLMI_MAX_SHORT_CMD_LEN ≠
      XPLMI_MAX_SHORT_CMD_LEN) :
    XPlmi_CmdSize (s.take m) m = refSize s := by
  unfold refSize
  rw [cmdSize_char (s.take m) m h1, cmdSize_char s s.length (by omega)]
  rw [getD_zero_take s m h1]
  rcases eq_or_ne ((s.getD 0 0 >>> XPLMI_SHORT_CMD_LEN_SHIFT) &&& XPLMI_MAX_SHORT_CMD_LEN)
      XPLMI_MAX_SHORT_CMD_LEN with hs | hs
  · rw [if_pos hs, if_pos hs]
    rcases hc with h2 | hcon
    · rw [if_pos (show XPLMI_LONG_CMD_HDR_LEN ≤ m from h2),
        if_pos (show XPLMI_LONG_CMD_HDR_LEN ≤ s.length from by
          show (2 : Nat) ≤ s.length
          omega),
        getD_take_of_lt s m 1 (by omega)]
    · exact absurd hs hcon
  · rw [if_neg hs, if_neg hs]

theorem refSize_sentinel_two (s : List Nat) (h1 : 1 ≤ s.length)
    (hs : (s.getD 0 0 >>> XPLMI_SHORT_CMD_LEN_SHIFT) &&& XPLMI_MAX_SHORT_CMD_LEN =
      XPLMI_MAX_SHORT_CMD_LEN) : 2 ≤ refSize s := by
  unfold refSize
  rw [cmdSize_char s s.length h1, if_pos hs]
  have h2 : XPLMI_LONG_CMD_HDR_LEN = 2 := rfl
  omega

theorem lt_refSize_of_stitch (s : List Nat) (m : Nat) (h1 : 1 ≤ m) (hms : m ≤ s.length)
    (hlt : m < XPlmi_CmdSize (s.take m) m) : m < refSize s := by
  rcases eq_or_ne ((s.getD 0 0 >>> XPLMI_SHORT_CMD_LEN_SHIFT) &&& XPLMI_MAX_SHORT_CMD_LEN)
      XPLMI_MAX_SHORT_CMD_LEN with hs | hs
  · rcases le_or_lt 2 m with h2 | h2
    · rw [cmdSize_take_eq s m h1 hms (Or.inl h2)] at hlt
      exact hlt
    · have := refSize_sentinel_two s (by omega) hs
      omega
  · rw [cmdSize_take_eq s m h1 hms (Or.inr hs)] at hlt
    exact hlt

theorem keyhole_false (L Pl : Nat) (hcap : L ≤ XPLMI_MAX_LONG_CMD_LEN) (hPl : Pl ≤ L) :
    ¬(L % MOD32 = sub32 Pl 1) := by
  have hM : XPLMI_MAX_LONG_CMD_LEN = 1048543 := rfl
  rw [Nat.mod_eq_of_lt (by rw [mod32_val]; omega)]
  rcases Nat.eq_zero_or_pos Pl with h0 | h0
  · subst h0
    have : sub32 0 1 = 4294967295 := by decide
    rw [this]
    omega
  · rw [sub32_eq Pl 1 h0 (by rw [mod32_val]; omega)]
    omega

theorem wfCmds_ne_nil (s : List Nat) (h : WfCmds s) : s ≠ [] := by
  cases h with
  | end_word _ hne _ => exact hne
  | more _ hne _ _ _ _ => exact hne

theorem take_self_take (l : List Nat) (m : Nat) : (l.take m).take m = l.take m := by
  rw [List.take_take, Nat.min_self]

theorem lt_cmdSize_take_of_lt (s : List Nat) (m : Nat) (h1 : 1 ≤ m) (hms : m ≤ s.length)
    (hlt : m < refSize s) : m < XPlmi_CmdSize (s.take m) m := by
  rcases eq_or_ne ((s.getD 0 0 >>> XPLMI_SHORT_CMD_LEN_SHIFT) &&& XPLMI_MAX_SHORT_CMD_LEN)
      XPLMI_MAX_SHORT_CMD_LEN with hs | hs
  · rcases le_or_lt 2 m with h2 | h2
    · rw [cmdSize_take_eq s m h1 hms (Or.inl h2)]
      exact hlt
    · have hm1 : m = 1 := by omega
      subst hm1
      have hs' : ((s.take 1).getD 0 0 >>> XPLMI_SHORT_CMD_LEN_SHIFT) &&&
          XPLMI_MAX_SHORT_CMD_LEN = XPLMI_MAX_SHORT_CMD_LEN := by
        rw [getD_zero_take s 1 (by omega)]
        exact hs
      rw [cmdSize_char (s.take 1) 1 (by omega), if_pos hs']
      rw [if_neg (show ¬XPLMI_LONG_CMD_HDR_LEN ≤ 1 from by decide)]
      have h2 : XPLMI_LONG_CMD_HDR_LEN = 2 := rfl
      have hmin : min XPLMI_MAX_SHORT_CMD_LEN XPLMI_MAX_LONG_CMD_LEN = 255 := by decide
      omega
  · rw [cmdSize_take_eq s m h1 hms (Or.inr hs)]
    exact hlt

theorem pure_cmdExecute (env : CdoEnv) (hex : ∀ c, env.execute c = (XST_SUCCESS, c))
    (c : XPlmi_Cmd) :
    XPlmi_CmdExecute env c =
      (XST_SUCCESS, { c with ProcessedLen := c.ProcessedLen + c.PayloadLen }) := by
  simp [XPlmi_CmdExecute, hex c]

theorem pure_cmdResume (env : CdoEnv) (hres : ∀ c, env.resume c = (XST_SUCCESS, c))
    (c : XPlmi_Cmd) :
    XPlmi_CmdResume env c =
      (XST_SUCCESS, { c with ProcessedLen := c.ProcessedLen + c.PayloadLen }) := by
  simp [XPlmi_CmdResume, hres c]

theorem execCmdView_cmdId (cdo : XPlmiCdo) (v : List Nat) (m : Nat) :
    (execCmdView cdo v m).CmdId = v.getD 0 0 := rfl

theorem execCmdView_len_eq (cdo : XPlmiCdo) (v : List Nat) (m : Nat) :
    (execCmdView cdo v m).Len = refLen v := rfl

theorem execCmdView_processedLen_eq (cdo : XPlmiCdo) (v : List Nat) (m : Nat) :
    (execCmdView cdo v m).ProcessedLen = 0 := rfl

theorem execCmdView_breakLength_eq (cdo : XPlmiCdo) (v : List Nat) (m : Nat) :
    (execCmdView cdo v m).BreakLength = 0 := rfl

theorem resumeCmdView_len_eq (cdo : XPlmiCdo) (v : List Nat) (m : Nat) :
    (resumeCmdView cdo v m).Len = cdo.Cmd.Len := rfl

theorem resumeCmdView_processedLen_eq (cdo : XPlmiCdo) (v : List Nat) (m : Nat) :
    (resumeCmdView cdo v m).ProcessedLen = cdo.Cmd.ProcessedLen := rfl

theorem resumeCmdView_payloadLen_eq (cdo : XPlmiCdo) (v : List Nat) (m : Nat) :
    (resumeCmdView cdo v m).PayloadLen = resumePayloadLen cdo m := rfl

theorem resumeCmdView_breakLength_eq (cdo : XPlmiCdo) (v : List Nat) (m : Nat) :
    (resumeCmdView cdo v m).BreakLength = cdo.Cmd.BreakLength := rfl

theorem freshPairs_nil : freshPairs [] = [] := rfl

theorem freshPairs_append (l1 l2 : List CdoEvent) :
    freshPairs (l1 ++ l2) = freshPairs l1 ++ freshPairs l2 := by
  simp [freshPairs]

theorem freshPairs_cons_false (c : XPlmi_Cmd) (l : List CdoEvent) :
    freshPairs (CdoEvent.dispatch false c :: l) = (c.CmdId, c.Len) :: freshPairs l := by
  simp [freshPairs]

theorem freshPairs_cons_true (c : XPlmi_Cmd) (l : List CdoEvent) :
    freshPairs (CdoEvent.dispatch true c :: l) = freshPairs l := by
  simp [freshPairs]

theorem upd_processedLen_breakLength (c : XPlmi_Cmd) (x : Nat) :
    ({ c with ProcessedLen := x } : XPlmi_Cmd).BreakLength = c.BreakLength := rfl

theorem upd_processedLen_len (c : XPlmi_Cmd) (x : Nat) :
    ({ c with ProcessedLen := x } : XPlmi_Cmd).Len = c.Len := rfl

theorem upd_processedLen_processedLen (c : XPlmi_Cmd) (x : Nat) :
    ({ c with ProcessedLen := x } : XPlmi_Cmd).ProcessedLen = x := rfl

theorem execCmdView_full_payloadLen (cdo : XPlmiCdo) (v : List Nat) (m : Nat)
    (hm32 : m < MOD32) (_h1 : 1 ≤ m) (hsz : XPlmi_CmdSize v m ≤ m)
    (hdec : XPlmi_CmdSize v m =
      (if (v.getD 0 0 >>> XPLMI_SHORT_CMD_LEN_SHIFT) &&& XPLMI_MAX_SHORT_CMD_LEN =
        XPLMI_MAX_SHORT_CMD_LEN then 2 else 1) + refLen v) :
    (execCmdView cdo v m).PayloadLen = refLen v := by
  have hs1 : execSize1 v m = XPlmi_CmdSize v m := by
    unfold execSize1
    rw [if_neg (not_lt.mpr hsz)]
  have hsz32 : XPlmi_CmdSize v m < MOD32 := by omega
  unfold execCmdView XPlmi_SetupCmd
  simp only []
  rw [hs1]
  rcases eq_or_ne ((v.getD 0 0 >>> XPLMI_SHORT_CMD_LEN_SHIFT) &&& XPLMI_MAX_SHORT_CMD_LEN)
      XPLMI_MAX_SHORT_CMD_LEN with hs | hs
  · rw [if_pos hs] at hdec
    simp only [if_pos hs]
    have hrl : refLen v = v.getD 1 0 := by
      unfold refLen
      rw [if_pos hs]
    have hsub : sub32 (XPlmi_CmdSize v m) XPLMI_LONG_CMD_HDR_LEN = refLen v := by
      have h2c : XPLMI_LONG_CMD_HDR_LEN = 2 := rfl
      rw [sub32_eq _ _ (by omega) hsz32]
      omega
    rw [hsub, hrl] at *
    rw [if_neg (lt_irrefl (v.getD 1 0))]
  · rw [if_neg hs] at hdec
    simp only [if_neg hs]
    have hrl : refLen v = (v.getD 0 0 >>> XPLMI_SHORT_CMD_LEN_SHIFT) &&&
        XPLMI_MAX_SHORT_CMD_LEN := by
      unfold refLen
      rw [if_neg hs]
    have hsub : sub32 (XPlmi_CmdSize v m) 1 = refLen v := by
      rw [sub32_eq _ _ (by omega) hsz32]
      omega
    rw [hsub, hrl] at *
    rw [if_neg (lt_irrefl _)]

/-! ## Claim C1 — the dispatch loop refines the reference parser -/

theorem loop_sim (env : CdoEnv) (sld : Bool)
    (hex : ∀ c, env.execute c = (XST_SUCCESS, c))
    (hres : ∀ c, env.resume c = (XST_SUCCESS, c))
    (hcpy : env.smemCpyStatus = XST_SUCCESS)
    (S : List Nat) (D : Nat) (_hD : S.length ≤ D) (hS32 : S.length < MOD32) :
    ∀ (f m q : Nat) (st : XPlmiCdo) (mo : RefMode) (acc : List CdoEvent) (buf : List Nat),
      buf = (S.drop q).take m →
      m ≤ f → q + m ≤ S.length →
      (mo = RefMode.idle q ∨ ∃ rem, mo = RefMode.resuming q rem) →
      modeInv S D mo st →
      ∃ (st2 : XPlmiCdo) (evs2 : List CdoEvent) (mo2 : RefMode),
        XPlmi_ProcessCdoLoop env sld f st buf m acc = some (XST_SUCCESS, st2, acc ++ evs2) ∧
        modeInv S D mo2 st2 ∧
        ((∃ p, mo2 = RefMode.ended p) ∨ modePos mo2 = q + m) ∧
        freshPairs evs2 ++ remPairs S mo2 = remPairs S mo ∧
        remP S mo2 = remP S mo := by
  intro f
  induction f with
  | zero =>
    intro m q st mo acc buf hbuf hf hqm hmo hinv
    have hm0 : m = 0 := Nat.le_zero.mp hf
    subst hm0
    refine ⟨st, [], mo, ?_, hinv, Or.inr ?_, by simp [freshPairs_nil], rfl⟩
    · rw [loop_exit_zero]
      simp
    · rcases hmo with h | ⟨rem, h⟩ <;> subst h <;> simp [modePos]
  | succ f ih =>
    intro m q st mo acc buf hbuf hf hqm hmo hinv
    rcases eq_or_ne m 0 with hm0 | hm0
    · subst hm0
      refine ⟨st, [], mo, ?_, hinv, Or.inr ?_, by simp [freshPairs_nil], rfl⟩
      · rw [loop_exit_zero]
        simp
      · rcases hmo with h | ⟨rem, h⟩ <;> subst h <;> simp [modePos]
    · have hm1 : 1 ≤ m := by omega
      have hm32 : m < MOD32 := by omega
      have hlen_s : (S.drop q).length = S.length - q := by rw [List.length_drop]
      have hbv0 : buf.getD 0 0 = (S.drop q).getD 0 0 := by
        rw [hbuf]
        exact getD_zero_take (S.drop q) m hm1
      rcases hmo with hmoI | ⟨rem, hmoR⟩
      · -- ===== idle entry =====
        subst hmoI
        obtain ⟨hcs, hcp, hP, hbl, hend, h1st, hDl, hqS, hwf⟩ := hinv
        have hdE : (if st.CmdState = XPLMI_CMD_STATE_RESUME then
              XPlmi_CdoCmdResume env st buf m
            else XPlmi_CdoCmdExecute env st buf m) =
            XPlmi_CdoCmdExecute env st buf m := if_neg (by rw [hcs]; decide)
        cases hwf with
        | end_word _ hne hw =>
          -- END word at the head of the view
          have hv0 : buf.getD 0 0 = XPLMI_CMD_END := by rw [hbv0]; exact hw
          have hstep := loop_step_end env sld f st buf m acc
            ({ st with CmdEndDetected := true }) 0 [] hm0
            (hdE.trans (cdoCmdExecute_end env st buf m hv0)) rfl
          refine ⟨orDeferred { st with CmdEndDetected := true }, [], RefMode.ended q,
            ?_, ⟨rfl, h1st, hP⟩, Or.inl ⟨q, rfl⟩, ?_, ?_⟩
          · rw [hstep]
          · show freshPairs [] ++ ([] : List (Nat × Nat)) =
              (RefParse (S.length - q) (S.drop q)).1
            rw [refParse_end (S.length - q) (S.drop q) hw]
            simp [freshPairs_nil]
          · show q = q + (RefParse (S.length - q) (S.drop q)).2
            rw [refParse_end (S.length - q) (S.drop q) hw]
            simp
        | more _ hne hw hsz hcap hrec =>
          have hsp := refSize_pos (S.drop q)
          have hszS : refSize (S.drop q) ≤ S.length - q := by rw [← hlen_s]; exact hsz
          have hne' : (S.drop q).length ≠ 0 := by rw [hlen_s]; omega
          have hv0ne : buf.getD 0 0 ≠ XPLMI_CMD_END := by rw [hbv0]; exact hw
          have hfq : S.length - q = (S.length - q - 1) + 1 := by omega
          have htail : RefParse (S.length - q - 1) ((S.drop q).drop (refSize (S.drop q))) =
              RefParse (S.length - (q + refSize (S.drop q)))
                (S.drop (q + refSize (S.drop q))) := by
            rw [drop_drop_add]
            refine refParse_fuel_ge _ _ _ ?_ ?_ <;> simp only [List.length_drop] <;> omega
          have hexp1 : (RefParse (S.length - q) (S.drop q)).1 =
              ((S.drop q).getD 0 0, refLen (S.drop q)) ::
                (RefParse (S.length - (q + refSize (S.drop q)))
                  (S.drop (q + refSize (S.drop q)))).1 := by
            rw [hfq, refParse_cons (S.length - q - 1) (S.drop q) hne' hw, htail]
          have hexp2 : (RefParse (S.length - q) (S.drop q)).2 =
              refSize (S.drop q) +
                (RefParse (S.length - (q + refSize (S.drop q)))
                  (S.drop (q + refSize (S.drop q)))).2 := by
            rw [hfq, refParse_cons (S.length - q - 1) (S.drop q) hne' hw, htail]
          have hexp1' : remPairs S (RefMode.idle q) =
              ((S.drop q).getD 0 0, refLen (S.drop q)) ::
                remPairs S (RefMode.idle (q + refSize (S.drop q))) := hexp1
          have hdec : refSize (S.drop q) =
              (if ((S.drop q).getD 0 0 >>> XPLMI_SHORT_CMD_LEN_SHIFT) &&&
                XPLMI_MAX_SHORT_CMD_LEN = XPLMI_MAX_SHORT_CMD_LEN then 2 else 1) +
                refLen (S.drop q) :=
            cmdSize_decomp (S.drop q) (S.drop q).length (by rw [hlen_s]; omega)
              (fun hs => by
                have := refSize_sentinel_two (S.drop q) (by rw [hlen_s]; omega) hs
                omega)
              hcap
          rcases le_or_lt (refSize (S.drop q)) m with hfull | hpart
          · -- ----- a full command inside the view -----
            have hc : 2 ≤ m ∨ ((S.drop q).getD 0 0 >>> XPLMI_SHORT_CMD_LEN_SHIFT) &&&
                XPLMI_MAX_SHORT_CMD_LEN ≠ XPLMI_MAX_SHORT_CMD_LEN := by
              rcases eq_or_ne (((S.drop q).getD 0 0 >>> XPLMI_SHORT_CMD_LEN_SHIFT) &&&
                  XPLMI_MAX_SHORT_CMD_LEN) XPLMI_MAX_SHORT_CMD_LEN with hs | hs
              · left
                have := refSize_sentinel_two (S.drop q) (by rw [hlen_s]; omega) hs
                omega
              · exact Or.inr hs
            have hvs : XPlmi_CmdSize buf m = refSize (S.drop q) := by
              rw [hbuf]
              exact cmdSize_take_eq (S.drop q) m hm1 (by rw [hlen_s]; omega) hc
            have hrlt : refLen buf = refLen (S.drop q) := by
              rw [hbuf]
              exact refLen_take (S.drop q) m hm1 hc
            have hnst : ¬(m < XPlmi_CmdSize buf m ∧ m < XPLMI_CMD_LEN_TEMPBUF) := by
              intro hpair
              rw [hvs] at hpair
              omega
            have hpure := pure_cmdExecute env hex (execCmdView st buf m)
            have hw1 : (XPlmi_CmdExecute env (execCmdView st buf m)).1 = XST_SUCCESS := by
              rw [hpure]
            have hw2L : (XPlmi_CmdExecute env (execCmdView st buf m)).2.Len = refLen buf := by
              rw [hpure]
              exact execCmdView_len_eq st buf m
            have hfullPl : (execCmdView st buf m).PayloadLen = refLen buf :=
              execCmdView_full_payloadLen st buf m hm32 hm1 (by rw [hvs]; exact hfull)
                (by rw [hvs, hbv0, hrlt]; exact hdec)
            have hw2Pl : (XPlmi_CmdExecute env (execCmdView st buf m)).2.PayloadLen =
                refLen buf := by
              rw [hpure]
              exact hfullPl
            have hw2P : (XPlmi_CmdExecute env (execCmdView st buf m)).2.ProcessedLen =
                refLen buf := by
              rw [hpure]
              show (execCmdView st buf m).ProcessedLen + (execCmdView st buf m).PayloadLen =
                refLen buf
              rw [execCmdView_processedLen_eq, hfullPl]
              omega
            have hw2B : (XPlmi_CmdExecute env (execCmdView st buf m)).2.BreakLength = 0 := by
              rw [hpure]
              exact execCmdView_breakLength_eq st buf m
            have hw2Id : (XPlmi_CmdExecute env (execCmdView st buf m)).2.CmdId =
                buf.getD 0 0 := by
              rw [hpure]
              exact execCmdView_cmdId st buf m
            have hkey : ¬((XPlmi_CmdExecute env (execCmdView st buf m)).2.Len % MOD32 =
                sub32 (XPlmi_CmdExecute env (execCmdView st buf m)).2.PayloadLen 1) := by
              rw [hw2L, hw2Pl, hrlt]
              exact keyhole_false (refLen (S.drop q)) (refLen (S.drop q)) hcap (le_refl _)
            have hok := cdoCmdExecute_ok env st buf m
              (XPlmi_CmdExecute env (execCmdView st buf m)).2 hv0ne hnst
              (by rw [← hw1]) hkey
            have hes : execSize1 buf m = refSize (S.drop q) := by
              unfold execSize1
              rw [hvs, if_neg (not_lt.mpr hfull)]
            have hstep := loop_step_continue env sld f st buf m acc _ _ _ hm0
              (hdE.trans hok) (by exact hend) (by exact hw2B)
            have hsub : sub32 m (execSize1 buf m) = m - refSize (S.drop q) := by
              rw [hes]
              exact sub32_eq m _ hfull hm32
            have hdropv : buf.drop (execSize1 buf m) =
                (S.drop (q + refSize (S.drop q))).take (m - refSize (S.drop q)) := by
              rw [hes, hbuf, view_drop]
            have hinv' : modeInv S D (RefMode.idle (q + refSize (S.drop q)))
                (orDeferred { st with
                  CmdState := if m < XPlmi_CmdSize buf m then XPLMI_CMD_STATE_RESUME
                    else st.CmdState
                  Cmd := (XPlmi_CmdExecute env (execCmdView st buf m)).2
                  ProcessedCdoLen := st.ProcessedCdoLen + execSize1 buf m }) := by
              refine ⟨?_, hcp, ?_, hw2B, hend, h1st, hDl, by omega, ?_⟩
              · show (if m < XPlmi_CmdSize buf m then XPLMI_CMD_STATE_RESUME
                  else st.CmdState) = XPLMI_CMD_STATE_START
                rw [hvs, if_neg (not_lt.mpr hfull)]
                exact hcs
              · show st.ProcessedCdoLen + execSize1 buf m = q + refSize (S.drop q)
                rw [hP, hes]
              · rw [← drop_drop_add]
                exact hrec
            obtain ⟨st2, evs2, mo2, hloop2, hinv2, hpos2, hpair2, hp2⟩ :=
              ih (m - refSize (S.drop q)) (q + refSize (S.drop q))
                (orDeferred { st with
                  CmdState := if m < XPlmi_CmdSize buf m then XPLMI_CMD_STATE_RESUME
                    else st.CmdState
                  Cmd := (XPlmi_CmdExecute env (execCmdView st buf m)).2
                  ProcessedCdoLen := st.ProcessedCdoLen + execSize1 buf m })
                (RefMode.idle (q + refSize (S.drop q)))
                (acc ++ [CdoEvent.dispatch false (execCmdView st buf m)])
                (buf.drop (execSize1 buf m)) (by rw [hdropv]) (by omega) (by omega)
                (Or.inl rfl) hinv'
            refine ⟨st2, [CdoEvent.dispatch false (execCmdView st buf m)] ++ evs2, mo2,
              ?_, hinv2, ?_, ?_, ?_⟩
            · rw [hstep, hsub, hloop2]
              simp
            · rcases hpos2 with h | h
              · exact Or.inl h
              · right
                rw [h]
                omega
            · rw [freshPairs_append, freshPairs_cons_false, freshPairs_nil,
                List.cons_append, List.nil_append, List.cons_append, hpair2,
                execCmdView_cmdId, execCmdView_len_eq, hbv0, hrlt, hexp1']
            · rw [hp2]
              show remP S (RefMode.idle (q + refSize (S.drop q))) = remP S (RefMode.idle q)
              simp only [remP]
              rw [hexp2]
              omega
          · rcases lt_or_ge m XPLMI_CMD_LEN_TEMPBUF with h8 | h8
            · -- ----- stitch: view shorter than the command and the scratch bound -----
              have hvlt : m < XPlmi_CmdSize buf m := by
                rw [hbuf]
                exact lt_cmdSize_take_of_lt (S.drop q) m hm1 (by rw [hlen_s]; omega) hpart
              have hstep := loop_step_continue env sld f st buf m acc _ _ _ hm0
                (hdE.trans (cdoCmdExecute_stitch env st buf m hv0ne hvlt h8 hcpy))
                (by exact hend) (by exact hbl)
              refine ⟨orDeferred { st with
                  Cmd := { st.Cmd with Len := XPlmi_CmdSize buf m }
                  TempCmdBuf := buf.take m
                  CopiedCmdLen := m }, [], RefMode.stitched q m, ?_, ?_,
                Or.inr rfl, rfl, rfl⟩
              · rw [hstep, sub32_self, loop_exit_zero]
              · refine ⟨hcs, rfl, hP, hbl, hend, h1st, hDl, by omega, h8, hpart, ?_,
                  hqm, WfCmds.more (S.drop q) hne hw hsz hcap hrec⟩
                show buf.take m = (S.drop q).take m
                rw [hbuf, take_self_take]
            · -- ----- partial execution: view at least the scratch bound -----
              have h8c : XPLMI_CMD_LEN_TEMPBUF = 8 := rfl
              have hvlt : m < XPlmi_CmdSize buf m := by
                rw [hbuf]
                exact lt_cmdSize_take_of_lt (S.drop q) m hm1 (by rw [hlen_s]; omega) hpart
              have hc : 2 ≤ m ∨ ((S.drop q).getD 0 0 >>> XPLMI_SHORT_CMD_LEN_SHIFT) &&&
                  XPLMI_MAX_SHORT_CMD_LEN ≠ XPLMI_MAX_SHORT_CMD_LEN := Or.inl (by omega)
              have hrlt : refLen buf = refLen (S.drop q) := by
                rw [hbuf]
                exact refLen_take (S.drop q) m hm1 hc
              have hnst : ¬(m < XPlmi_CmdSize buf m ∧ m < XPLMI_CMD_LEN_TEMPBUF) :=
                fun hpair => absurd hpair.2 (by omega)
              have h8' : XPLMI_CMD_LEN_TEMPBUF ≤ m := h8
              have hPl : (execCmdView st buf m).PayloadLen = m - cmdHdrLen buf :=
                execCmdView_partial_payloadLen st buf m hm32 h8' hvlt
              have hhd : cmdHdrLen buf =
                  (if ((S.drop q).getD 0 0 >>> XPLMI_SHORT_CMD_LEN_SHIFT) &&&
                    XPLMI_MAX_SHORT_CMD_LEN = XPLMI_MAX_SHORT_CMD_LEN then
                      XPLMI_LONG_CMD_HDR_LEN else 1) := by
                unfold cmdHdrLen
                rw [hbv0]
              have hple : m - cmdHdrLen buf < refLen (S.drop q) := by
                rw [hhd]
                have hvr : m < refSize (S.drop q) := hpart
                rcases eq_or_ne (((S.drop q).getD 0 0 >>> XPLMI_SHORT_CMD_LEN_SHIFT) &&&
                    XPLMI_MAX_SHORT_CMD_LEN) XPLMI_MAX_SHORT_CMD_LEN with hs | hs
                · rw [if_pos hs] at hdec ⊢
                  have h2c : XPLMI_LONG_CMD_HDR_LEN = 2 := rfl
                  omega
                · rw [if_neg hs] at hdec ⊢
                  omega
              have hpure := pure_cmdExecute env hex (execCmdView st buf m)
              have hw1 : (XPlmi_CmdExecute env (execCmdView st buf m)).1 = XST_SUCCESS := by
                rw [hpure]
              have hw2L : (XPlmi_CmdExecute env (execCmdView st buf m)).2.Len =
                  refLen buf := by
                rw [hpure]
                exact execCmdView_len_eq st buf m
              have hw2Pl : (XPlmi_CmdExecute env (execCmdView st buf m)).2.PayloadLen =
                  m - cmdHdrLen buf := by
                rw [hpure]
                exact hPl
              have hw2P : (XPlmi_CmdExecute env (execCmdView st buf m)).2.ProcessedLen =
                  m - cmdHdrLen buf := by
                rw [hpure]
                show (execCmdView st buf m).ProcessedLen +
                  (execCmdView st buf m).PayloadLen = m - cmdHdrLen buf
                rw [execCmdView_processedLen_eq, hPl]
                omega
              have hw2B : (XPlmi_CmdExecute env (execCmdView st buf m)).2.BreakLength = 0 := by
                rw [hpure]
                exact execCmdView_breakLength_eq st buf m
              have hkey : ¬((XPlmi_CmdExecute env (execCmdView st buf m)).2.Len % MOD32 =
                  sub32 (XPlmi_CmdExecute env (execCmdView st buf m)).2.PayloadLen 1) := by
                rw [hw2L, hw2Pl, hrlt]
                exact keyhole_false (refLen (S.drop q)) (m - cmdHdrLen buf) hcap
                  (le_of_lt hple)
              have hok := cdoCmdExecute_ok env st buf m
                (XPlmi_CmdExecute env (execCmdView st buf m)).2 hv0ne hnst
                (by rw [← hw1]) hkey
              have hes : execSize1 buf m = m := by
                unfold execSize1
                rw [if_pos hvlt]
              have hstep := loop_step_continue env sld f st buf m acc _ _ _ hm0
                (hdE.trans hok) (by exact hend) (by exact hw2B)
              have hLen4 : (XPlmi_CmdExecute env (execCmdView st buf m)).2.Len =
                  (XPlmi_CmdExecute env (execCmdView st buf m)).2.ProcessedLen +
                    (refSize (S.drop q) - m) := by
                rw [hw2L, hw2P, hrlt, hhd]
                rcases eq_or_ne (((S.drop q).getD 0 0 >>> XPLMI_SHORT_CMD_LEN_SHIFT) &&&
                    XPLMI_MAX_SHORT_CMD_LEN) XPLMI_MAX_SHORT_CMD_LEN with hs | hs
                · rw [if_pos hs] at hdec ⊢
                  have h2c : XPLMI_LONG_CMD_HDR_LEN = 2 := rfl
                  omega
                · rw [if_neg hs] at hdec ⊢
                  omega
              refine ⟨orDeferred { st with
                  CmdState := if m < XPlmi_CmdSize buf m then XPLMI_CMD_STATE_RESUME
                    else st.CmdState
                  Cmd := (XPlmi_CmdExecute env (execCmdView st buf m)).2
                  ProcessedCdoLen := st.ProcessedCdoLen + execSize1 buf m },
                [CdoEvent.dispatch false (execCmdView st buf m)],
                RefMode.resuming (q + m) (refSize (S.drop q) - m), ?_, ?_,
                Or.inr rfl, ?_, ?_⟩
              · rw [hstep, hes, sub32_self, loop_exit_zero]
              · refine ⟨?_, hcp, ?_, hw2B, hend, h1st, hDl, by omega, by omega, hLen4, ?_,
                  ?_, ?_⟩
                · show (if m < XPlmi_CmdSize buf m then XPLMI_CMD_STATE_RESUME
                    else st.CmdState) = XPLMI_CMD_STATE_RESUME
                  rw [if_pos hvlt]
                · show st.ProcessedCdoLen + execSize1 buf m = q + m
                  rw [hP, hes]
                · show (XPlmi_CmdExecute env (execCmdView st buf m)).2.Len < MOD32
                  rw [hw2L, hrlt]
                  have hMv : XPLMI_MAX_LONG_CMD_LEN = 1048543 := rfl
                  rw [mod32_val]
                  omega
                · show (XPlmi_CmdExecute env (execCmdView st buf m)).2.ProcessedLen ≤ q + m
                  rw [hw2P]
                  omega
                · rw [show q + m + (refSize (S.drop q) - m) = q + refSize (S.drop q) from
                    by omega, ← drop_drop_add]
                  exact hrec
              · simp only [remPairs]
                rw [show q + m + (refSize (S.drop q) - m) = q + refSize (S.drop q) from
                  by omega]
                rw [freshPairs_cons_false, freshPairs_nil, List.cons_append,
                  List.nil_append, execCmdView_cmdId, execCmdView_len_eq, hbv0, hrlt, hexp1]
              · simp only [remP]
                rw [show q + m + (refSize (S.drop q) - m) = q + refSize (S.drop q) from
                  by omega, hexp2]
                omega
      · -- ===== resuming entry =====
        subst hmoR
        obtain ⟨hcs, hcp, hP, hbl, hend, h1st, hDl, hrem0, hqrem, hLen, hL32, hPq, hwfR⟩ :=
          hinv
        have hPm32 : st.Cmd.ProcessedLen + m < MOD32 := by omega
        have hdR : (if st.CmdState = XPLMI_CMD_STATE_RESUME then
              XPlmi_CdoCmdResume env st buf m
            else XPlmi_CdoCmdExecute env st buf m) =
            XPlmi_CdoCmdResume env st buf m := if_pos hcs
        have hpr := pure_cmdResume env hres (resumeCmdView st buf m)
        have hdisp := cdoCmdResume_eq env st buf m XST_SUCCESS
          ({ resumeCmdView st buf m with
             ProcessedLen := (resumeCmdView st buf m).ProcessedLen +
               (resumeCmdView st buf m).PayloadLen }) hpr
        rw [add32_eq st.Cmd.ProcessedLen m hPm32] at hdisp
        have hbl2 : ({ resumeCmdView st buf m with
            ProcessedLen := (resumeCmdView st buf m).ProcessedLen +
              (resumeCmdView st buf m).PayloadLen } : XPlmi_Cmd).BreakLength = 0 := by
          rw [upd_processedLen_breakLength, resumeCmdView_breakLength_eq]
          exact hbl
        rcases lt_or_ge m rem with hmr | hmr
        · -- view shorter than the outstanding payload: stays resuming
          have hplm : resumePayloadLen st m = m := by
            unfold resumePayloadLen
            rw [add32_eq st.Cmd.ProcessedLen m hPm32]
            rw [if_pos (show st.Cmd.ProcessedLen + m < st.Cmd.Len from by omega)]
          have hstep := loop_step_continue env sld f st buf m acc _ _ _ hm0
            (hdR.trans hdisp) (by exact hend) (by exact hbl2)
          refine ⟨orDeferred { st with
              CmdState := if st.Cmd.ProcessedLen + m < st.Cmd.Len then st.CmdState
                else XPLMI_CMD_STATE_START
              Cmd := { resumeCmdView st buf m with
                ProcessedLen := (resumeCmdView st buf m).ProcessedLen +
                  (resumeCmdView st buf m).PayloadLen }
              ProcessedCdoLen := st.ProcessedCdoLen + resumePayloadLen st m },
            [CdoEvent.dispatch true (resumeCmdView st buf m)],
            RefMode.resuming (q + m) (rem - m), ?_, ?_, Or.inr rfl, ?_, ?_⟩
          · rw [hstep, hplm, sub32_self, loop_exit_zero]
          · refine ⟨?_, hcp, ?_, hbl2, hend, h1st, hDl, by omega, by omega, ?_, ?_, ?_, ?_⟩
            · show (if st.Cmd.ProcessedLen + m < st.Cmd.Len then st.CmdState
                else XPLMI_CMD_STATE_START) = XPLMI_CMD_STATE_RESUME
              rw [if_pos (by omega)]
              exact hcs
            · show st.ProcessedCdoLen + resumePayloadLen st m = q + m
              rw [hP, hplm]
            · show ({ resumeCmdView st buf m with
                  ProcessedLen := (resumeCmdView st buf m).ProcessedLen +
                    (resumeCmdView st buf m).PayloadLen } : XPlmi_Cmd).Len =
                ({ resumeCmdView st buf m with
                  ProcessedLen := (resumeCmdView st buf m).ProcessedLen +
                    (resumeCmdView st buf m).PayloadLen } : XPlmi_Cmd).ProcessedLen +
                  (rem - m)
              rw [upd_processedLen_len, resumeCmdView_len_eq, upd_processedLen_processedLen,
                resumeCmdView_processedLen_eq, resumeCmdView_payloadLen_eq, hplm, hLen]
              omega
            · show ({ resumeCmdView st buf m with
                  ProcessedLen := (resumeCmdView st buf m).ProcessedLen +
                    (resumeCmdView st buf m).PayloadLen } : XPlmi_Cmd).Len < MOD32
              rw [upd_processedLen_len, resumeCmdView_len_eq]
              exact hL32
            · show ({ resumeCmdView st buf m with
                  ProcessedLen := (resumeCmdView st buf m).ProcessedLen +
                    (resumeCmdView st buf m).PayloadLen } : XPlmi_Cmd).ProcessedLen ≤ q + m
              rw [upd_processedLen_processedLen, resumeCmdView_processedLen_eq,
                resumeCmdView_payloadLen_eq, hplm]
              omega
            · rw [show q + m + (rem - m) = q + rem from by omega]
              exact hwfR
          · rw [freshPairs_cons_true, freshPairs_nil, List.nil_append]
            simp only [remPairs]
            rw [show q + m + (rem - m) = q + rem from by omega]
          · simp only [remP]
            rw [show q + m + (rem - m) = q + rem from by omega]
        · -- the view completes the command: back to idle and keep dispatching
          have hplr : resumePayloadLen st m = rem := by
            unfold resumePayloadLen
            rw [add32_eq st.Cmd.ProcessedLen m hPm32]
            rw [if_neg (show ¬(st.Cmd.ProcessedLen + m < st.Cmd.Len) from by omega)]
            rw [hLen, sub32_eq _ _ (by omega) (by rw [← hLen]; exact hL32)]
            omega
          have hstep := loop_step_continue env sld f st buf m acc _ _ _ hm0
            (hdR.trans hdisp) (by exact hend) (by exact hbl2)
          have hsub : sub32 m (resumePayloadLen st m) = m - rem := by
            rw [hplr]
            exact sub32_eq m rem hmr hm32
          have hdropv : buf.drop (resumePayloadLen st m) =
              (S.drop (q + rem)).take (m - rem) := by
            rw [hplr, hbuf, view_drop]
          have hinv' : modeInv S D (RefMode.idle (q + rem))
              (orDeferred { st with
                CmdState := if st.Cmd.ProcessedLen + m < st.Cmd.Len then st.CmdState
                  else XPLMI_CMD_STATE_START
                Cmd := { resumeCmdView st buf m with
                  ProcessedLen := (resumeCmdView st buf m).ProcessedLen +
                    (resumeCmdView st buf m).PayloadLen }
                ProcessedCdoLen := st.ProcessedCdoLen + resumePayloadLen st m }) := by
            refine ⟨?_, hcp, ?_, hbl2, hend, h1st, hDl, hqrem, hwfR⟩
            · show (if st.Cmd.ProcessedLen + m < st.Cmd.Len then st.CmdState
                else XPLMI_CMD_STATE_START) = XPLMI_CMD_STATE_START
              rw [if_neg (by omega)]
            · show st.ProcessedCdoLen + resumePayloadLen st m = q + rem
              rw [hP, hplr]
          obtain ⟨st2, evs2, mo2, hloop2, hinv2, hpos2, hpair2, hp2⟩ :=
            ih (m - rem) (q + rem)
              (orDeferred { st with
                CmdState := if st.Cmd.ProcessedLen + m < st.Cmd.Len then st.CmdState
                  else XPLMI_CMD_STATE_START
                Cmd := { resumeCmdView st buf m with
                  ProcessedLen := (resumeCmdView st buf m).ProcessedLen +
                    (resumeCmdView st buf m).PayloadLen }
                ProcessedCdoLen := st.ProcessedCdoLen + resumePayloadLen st m })
              (RefMode.idle (q + rem))
              (acc ++ [CdoEvent.dispatch true (resumeCmdView st buf m)])
              (buf.drop (resumePayloadLen st m)) (by rw [hdropv]) (by omega) (by omega)
              (Or.inl rfl) hinv'
          refine ⟨st2, [CdoEvent.dispatch true (resumeCmdView st buf m)] ++ evs2, mo2,
            ?_, hinv2, ?_, ?_, ?_⟩
          · rw [hstep, hsub, hloop2]
            simp
          · rcases hpos2 with h | h
            · exact Or.inl h
            · right
              rw [h]
              omega
          · rw [freshPairs_append, freshPairs_cons_true, freshPairs_nil, List.nil_append,
              hpair2]
            rfl
          · rw [hp2]
            rfl

theorem rest_sim (env : CdoEnv) (sld : Bool)
    (hex : ∀ c, env.execute c = (XST_SUCCESS, c))
    (hres : ∀ c, env.resume c = (XST_SUCCESS, c))
    (hcpy : env.smemCpyStatus = XST_SUCCESS)
    (S : List Nat) (D : Nat) (hD : S.length ≤ D) (hD32 : D < MOD32) :
    ∀ (st : XPlmiCdo) (mo : RefMode) (c : List Nat),
      modeInv S D mo st →
      (∀ p, mo ≠ RefMode.ended p) →
      st.BufLen = c.length →
      c = (S.drop (modePos mo)).take c.length →
      modePos mo + c.length ≤ S.length →
      ∃ st2 evs2 mo2,
        XPlmi_ProcessCdoRest env sld st c = some (XST_SUCCESS, st2, evs2) ∧
        modeInv S D mo2 st2 ∧
        ((∃ p, mo2 = RefMode.ended p) ∨ modePos mo2 = modePos mo + c.length) ∧
        freshPairs evs2 ++ remPairs S mo2 = remPairs S mo ∧
        remP S mo2 = remP S mo := by
  have hS32 : S.length < MOD32 := by omega
  intro st mo c hinv hlive hblen hcdel hbound
  cases mo with
  | ended p => exact absurd rfl (hlive p)
  | idle q =>
    obtain ⟨hcs, hcp, hP, hbl, hend, h1st, hDl, hqS, hwf⟩ := hinv
    have hcl : ¬st.CdoLen < add32 (add32 st.BufLen st.ProcessedCdoLen) st.CopiedCmdLen :=
      noclamp_of_le st (by rw [hblen, hP, hcp]; simp [modePos] at hbound; omega)
        (by rw [hDl]; exact hD32)
    rw [processCdoRest_plain env sld st c hcl hend hcp hbl, hblen]
    obtain ⟨st2, evs2, mo2, hloop, hinv2, hpos2, hpair2, hp2⟩ :=
      loop_sim env sld hex hres hcpy S D hD hS32 c.length c.length q st (RefMode.idle q)
        [] c hcdel (le_refl _) (by simp [modePos] at hbound; omega) (Or.inl rfl)
        ⟨hcs, hcp, hP, hbl, hend, h1st, hDl, hqS, hwf⟩
    refine ⟨st2, evs2, mo2, ?_, hinv2, ?_, hpair2, hp2⟩
    · rw [hloop]
      simp
    · rcases hpos2 with h | h
      · exact Or.inl h
      · exact Or.inr h
  | resuming q rem =>
    obtain ⟨hcs, hcp, hP, hbl, hend, h1st, hDl, hrem0, hqrem, hLen, hL32, hPq, hwfR⟩ :=
      hinv
    have hcl : ¬st.CdoLen < add32 (add32 st.BufLen st.ProcessedCdoLen) st.CopiedCmdLen :=
      noclamp_of_le st (by rw [hblen, hP, hcp]; simp [modePos] at hbound; omega)
        (by rw [hDl]; exact hD32)
    rw [processCdoRest_plain env sld st c hcl hend hcp hbl, hblen]
    obtain ⟨st2, evs2, mo2, hloop, hinv2, hpos2, hpair2, hp2⟩ :=
      loop_sim env sld hex hres hcpy S D hD hS32 c.length c.length q st
        (RefMode.resuming q rem) [] c hcdel (le_refl _)
        (by simp [modePos] at hbound; omega) (Or.inr ⟨rem, rfl⟩)
        ⟨hcs, hcp, hP, hbl, hend, h1st, hDl, hrem0, hqrem, hLen, hL32, hPq, hwfR⟩
    refine ⟨st2, evs2, mo2, ?_, hinv2, ?_, hpair2, hp2⟩
    · rw [hloop]
      simp
    · rcases hpos2 with h | h
      · exact Or.inl h
      · exact Or.inr h
  | stitched q t =>
    obtain ⟨hcs, hcp, hP, hbl, hend, h1st, hDl, ht0, ht8, htsz, hTemp, hqt, hwf⟩ := hinv
    have hposx : q + t + c.length ≤ S.length := by
      simpa [modePos] using hbound
    have hcl : ¬st.CdoLen < add32 (add32 st.BufLen st.ProcessedCdoLen) st.CopiedCmdLen :=
      noclamp_of_le st (by rw [hblen, hP, hcp]; omega) (by rw [hDl]; exact hD32)
    have hcpne : st.CopiedCmdLen ≠ 0 := by omega
    rw [processCdoRest_merge env sld st c hcl hend hcpne hbl]
    have hbuf2 : st.TempCmdBuf ++ c = (S.drop q).take (st.BufLen + st.CopiedCmdLen) := by
      rw [hblen, hcp, hTemp, Nat.add_comm c.length t, List.take_add, drop_drop_add]
      congr 1
    obtain ⟨st2, evs2, mo2, hloop, hinv2, hpos2, hpair2, hp2⟩ :=
      loop_sim env sld hex hres hcpy S D hD hS32 (st.BufLen + st.CopiedCmdLen)
        (st.BufLen + st.CopiedCmdLen) q ({ st with CopiedCmdLen := 0 }) (RefMode.idle q)
        [] (st.TempCmdBuf ++ c) hbuf2 (le_refl _) (by rw [hblen, hcp]; omega)
        (Or.inl rfl) ⟨hcs, rfl, hP, hbl, hend, h1st, hDl, by omega, hwf⟩
    refine ⟨st2, evs2, mo2, ?_, hinv2, ?_, hpair2, hp2⟩
    · rw [hloop]
      simp
    · rcases hpos2 with h | h
      · exact Or.inl h
      · right
        rw [h, hblen, hcp]
        show q + (c.length + t) = q + t + c.length
        omega

theorem runChunks_sim (env : CdoEnv) (sld : Bool)
    (hex : ∀ c, env.execute c = (XST_SUCCESS, c))
    (hres : ∀ c, env.resume c = (XST_SUCCESS, c))
    (hcpy : env.smemCpyStatus = XST_SUCCESS)
    (S : List Nat) (D : Nat) (hD : S.length ≤ D) (hD32 : D < MOD32) :
    ∀ (chunks : List (List Nat)) (st : XPlmiCdo) (mo : RefMode) (acc : List CdoEvent),
      modeInv S D mo st →
      ((∃ p, mo = RefMode.ended p) ∨ chunks.flatten = S.drop (modePos mo)) →
      ∃ st2 evs2,
        XPlmi_RunChunks env sld st chunks acc = some (XST_SUCCESS, st2, acc ++ evs2) ∧
        freshPairs evs2 = remPairs S mo ∧
        st2.ProcessedCdoLen = remP S mo := by
  intro chunks
  induction chunks with
  | nil =>
    intro st mo acc hinv hdel
    by_cases hIsEnd : ∃ p, mo = RefMode.ended p
    · obtain ⟨p, hmo⟩ := hIsEnd
      subst hmo
      obtain ⟨hendT, h1stT, hPT⟩ := hinv
      exact ⟨st, [], by simp [XPlmi_RunChunks], rfl, hPT⟩
    · rcases hdel with h | hjoin
      · exact absurd h hIsEnd
      · exfalso
        rw [List.flatten_nil] at hjoin
        have hlen := List.drop_eq_nil_iff.mp hjoin.symm
        cases mo with
        | ended p => exact hIsEnd ⟨p, rfl⟩
        | idle q =>
          obtain ⟨-, -, -, -, -, -, -, -, hwf⟩ := hinv
          exact wfCmds_ne_nil (S.drop q) hwf hjoin.symm
        | resuming q rem =>
          obtain ⟨-, -, -, -, -, -, -, hrem0, hqrem, -, -, -, -⟩ := hinv
          simp [modePos] at hlen
          omega
        | stitched q t =>
          obtain ⟨-, -, -, -, -, -, -, ht0, -, htsz, -, hqt, hwf⟩ := hinv
          simp [modePos] at hlen
          cases hwf with
          | end_word _ hne hw =>
            have h1 : 1 ≤ (S.drop q).length := by
              rcases Nat.eq_zero_or_pos (S.drop q).length with h0 | h0
              · exact absurd (List.length_eq_zero.mp h0) hne
              · exact h0
            have := refSize_of_end (S.drop q) h1 hw
            omega
          | more _ hne hw hsz hcap hrec =>
            rw [List.length_drop] at hsz
            omega
  | cons c cs ihc =>
    intro st mo acc hinv hdel
    by_cases hIsEnd : ∃ p, mo = RefMode.ended p
    · obtain ⟨p, hmo⟩ := hIsEnd
      subst hmo
      obtain ⟨hendT, h1stT, hPT⟩ := hinv
      obtain ⟨st3, hrun, hP3, hend3, h1st3⟩ :=
        runChunks_end_noop env sld (c :: cs) st acc hendT h1stT
      refine ⟨st3, [], ?_, rfl, by rw [hP3, hPT]; rfl⟩
      rw [hrun]
      simp
    · have hlive : ∀ p, mo ≠ RefMode.ended p := fun p h => hIsEnd ⟨p, h⟩
      rcases hdel with h | hjoin
      · exact absurd h hIsEnd
      · rw [List.flatten_cons] at hjoin
      -- split the delivery between the head chunk and the tail
        have hc1 : c = (S.drop (modePos mo)).take c.length := by
          rw [← hjoin, List.take_left]
        have hcs1 : cs.flatten = S.drop (modePos mo + c.length) := by
          rw [← drop_drop_add, ← hjoin, List.drop_left]
        have hposS : modePos mo ≤ S.length := by
          cases mo with
          | ended p => exact absurd rfl (hlive p)
          | idle q => exact hinv.2.2.2.2.2.2.2.1
          | resuming q rem =>
            obtain ⟨-, -, -, -, -, -, -, h8, h9, -, -, -⟩ := hinv
            show q ≤ S.length
            omega
          | stitched q t => exact hinv.2.2.2.2.2.2.2.2.2.2.2.1
        have hbound : modePos mo + c.length ≤ S.length := by
          have := congrArg List.length hjoin
          rw [List.length_append, List.length_drop] at this
          omega
        have h1stF : st.Cdo1stChunk = false := by
          cases mo with
          | ended p => exact absurd rfl (hlive p)
          | idle q => exact hinv.2.2.2.2.2.1
          | resuming q rem => exact hinv.2.2.2.2.2.1
          | stitched q t => exact hinv.2.2.2.2.2.1
        have hinv' : modeInv S D mo { st with BufPtr := c, BufLen := c.length } := by
          cases mo with
          | ended p => exact absurd rfl (hlive p)
          | idle q => exact hinv
          | resuming q rem => exact hinv
          | stitched q t => exact hinv
        obtain ⟨st2, evs1, mo2, hcall, hinv2, hpos2, hpair2, hp2⟩ :=
          rest_sim env sld hex hres hcpy S D hD hD32
            { st with BufPtr := c, BufLen := c.length } mo c hinv' hlive rfl hc1 hbound
        have hfeed : XPlmi_FeedChunk env sld st c = some (XST_SUCCESS, st2, evs1) := by
          show XPlmi_ProcessCdo env sld { st with BufPtr := c, BufLen := c.length } = _
          rw [processCdo_notfirst env sld { st with BufPtr := c, BufLen := c.length } h1stF]
          exact hcall
        have hstep := runChunks_cons_ok env sld st c cs acc (XST_SUCCESS, st2, evs1)
          hfeed rfl
        obtain ⟨st3, evs3, hrun3, hpair3, hp3⟩ := ihc st2 mo2 (acc ++ evs1) hinv2
          (by
            rcases hpos2 with h | h
            · exact Or.inl h
            · right
              rw [h]
              exact hcs1)
        refine ⟨st3, evs1 ++ evs3, ?_, ?_, ?_⟩
        · rw [hstep, hrun3]
          simp
        · rw [freshPairs_append, hpair3, hpair2]
        · rw [hp3, hp2]

/-- **C1.** Fragmentation invariance: for a fixed well-formed post-header
stream `S` behind a valid five-word header, every partition of the byte
stream into chunks — any first chunk containing the header, any split of
the rest — fed through successive `XPlmi_ProcessCdo` calls from a fresh
state succeeds and yields the identical sequence of dispatched commands
`(RefParse S.length S).1` and the identical final `ProcessedCdoLen`
`(RefParse S.length S).2`, both functions of `S` alone.  Handlers are the
registry reference (pure success), the scratch copy succeeds, every
command is in-bounds with in-range length, and the declared object length
covers the stream. -/
theorem c1_fragmentation_invariance :
    ∀ (env : CdoEnv) (sld : Bool) (hdr S : List Nat) (c0 : List Nat)
      (rest : List (List Nat)),
      (∀ c, env.execute c = (XST_SUCCESS, c)) →
      (∀ c, env.resume c = (XST_SUCCESS, c)) →
      env.smemCpyStatus = XST_SUCCESS →
      WfCmds S → S.length ≤ hdr.getD 3 0 → hdr.getD 3 0 < MOD32 →
      S.length + XPLMI_CDO_HDR_LEN < MOD32 →
      hdr.length = XPLMI_CDO_HDR_LEN →
      hdr.getD 1 0 = XPLMI_CDO_HDR_IDN_WRD →
      CdoHdrCheckSum hdr = hdr.getD 4 0 →
      XPLMI_CDO_HDR_LEN ≤ c0.length →
      (c0 :: rest).flatten = hdr ++ S →
      ∃ st2 evs,
        XPlmi_RunChunks env sld XPlmi_InitCdo (c0 :: rest) [] =
          some (XST_SUCCESS, st2, evs) ∧
        freshPairs evs = (RefParse S.length S).1 ∧
        st2.ProcessedCdoLen = (RefParse S.length S).2 := by
  intro env sld hdr S c0 rest hex hres hcpy hwf hDge hD32 hS5 hhlen hidn hchk hc05 hjoin
  have h5 : XPLMI_CDO_HDR_LEN = 5 := rfl
  have hM : MOD32 = 4294967296 := rfl
  rw [List.flatten_cons] at hjoin
  have hc0pre : c0 = (hdr ++ S).take c0.length := by
    rw [← hjoin, List.take_left]
  have hc0le : c0.length ≤ XPLMI_CDO_HDR_LEN + S.length := by
    have := congrArg List.length hjoin
    rw [List.length_append, List.length_append, hhlen] at this
    omega
  have hget : ∀ i, i < XPLMI_CDO_HDR_LEN → c0.getD i 0 = hdr.getD i 0 := by
    intro i hi
    rw [hc0pre, getD_take_of_lt _ _ _ (by omega), getD_append_of_lt _ _ _ (by omega)]
  -- the first call: header verification succeeds, then the rest of the first chunk
  have hst0 : ({ XPlmi_InitCdo with BufPtr := c0, BufLen := c0.length } :
      XPlmiCdo).Cdo1stChunk = true := rfl
  have hver : XPlmi_CdoVerifyHeader { XPlmi_InitCdo with BufPtr := c0, BufLen := c0.length } = XST_SUCCESS := by
    rw [verifyHeader_eq]
    show (if c0.getD 1 0 ≠ XPLMI_CDO_HDR_IDN_WRD then XPLMI_ERR_CDO_HDR_ID
      else if CdoHdrCheckSum c0 ≠ c0.getD 4 0 then XPLMI_ERR_CDO_CHECKSUM
      else XST_SUCCESS) = XST_SUCCESS
    have hchk0 : CdoHdrCheckSum c0 = CdoHdrCheckSum hdr := by
      unfold CdoHdrCheckSum
      rw [hget 0 (by omega), hget 1 (by omega), hget 2 (by omega), hget 3 (by omega)]
    rw [if_neg (by rw [hget 1 (by omega), hidn]; exact fun h => h rfl),
      if_neg (by rw [hchk0, hchk, hget 4 (by omega)]; exact fun h => h rfl)]
  have hfirst := processCdo_first_success env sld
    { XPlmi_InitCdo with BufPtr := c0, BufLen := c0.length } hst0 hver
  have hsubl : sub32 c0.length XPLMI_CDO_HDR_LEN = c0.length - XPLMI_CDO_HDR_LEN :=
    sub32_eq c0.length XPLMI_CDO_HDR_LEN hc05 (by omega)
  -- the state after the one-time header processing is idle at offset 0
  have hD0 : hdr.getD 3 0 < MOD32 := hD32
  have hdrop5 : c0.drop XPLMI_CDO_HDR_LEN =
      (S.drop 0).take (c0.length - XPLMI_CDO_HDR_LEN) := by
    rw [List.drop_zero, hc0pre, drop_take_swap]
    show ((hdr ++ S).drop XPLMI_CDO_HDR_LEN).take _ = _
    rw [show XPLMI_CDO_HDR_LEN = hdr.length from by rw [hhlen], List.drop_left]
    have hlen0 : c0.length ≤ (hdr ++ S).length := by
      rw [List.length_append, hhlen]
      omega
    rw [List.length_take_of_le hlen0]
  obtain ⟨st2, evs1, mo2, hcall, hinv2, hpos2, hpair2, hp2⟩ :=
    rest_sim env sld hex hres hcpy S (hdr.getD 3 0) hDge hD32
      { XPlmi_InitCdo with
        BufPtr := c0
        Cdo1stChunk := false
        CdoLen := c0.getD 3 0
        BufLen := sub32 c0.length XPLMI_CDO_HDR_LEN }
      (RefMode.idle 0) (c0.drop XPLMI_CDO_HDR_LEN)
      (by
        refine ⟨rfl, rfl, rfl, rfl, rfl, rfl, ?_, by omega, ?_⟩
        · show c0.getD 3 0 = hdr.getD 3 0
          exact hget 3 (by omega)
        · rw [List.drop_zero]
          exact hwf)
      (fun p h => RefMode.noConfusion h)
      (by
        show sub32 c0.length XPLMI_CDO_HDR_LEN = (c0.drop XPLMI_CDO_HDR_LEN).length
        rw [hsubl, List.length_drop])
      (by rw [List.length_drop]; exact hdrop5)
      (by rw [List.length_drop]; simp [modePos]; omega)
  have hfeed : XPlmi_FeedChunk env sld XPlmi_InitCdo c0 = some (XST_SUCCESS, st2, evs1) := by
    show XPlmi_ProcessCdo env sld { XPlmi_InitCdo with BufPtr := c0, BufLen := c0.length } = _
    rw [hfirst]
    exact hcall
  have hstep := runChunks_cons_ok env sld XPlmi_InitCdo c0 rest []
    (XST_SUCCESS, st2, evs1) hfeed rfl
  have hrestj : rest.flatten = S.drop (c0.length - XPLMI_CDO_HDR_LEN) := by
    have hj2 : rest.flatten = (hdr ++ S).drop c0.length := by
      rw [← hjoin, List.drop_left]
    rw [hj2, show c0.length = hdr.length + (c0.length - XPLMI_CDO_HDR_LEN) from by
      rw [hhlen]; omega, List.drop_append]
    rw [hhlen, h5, Nat.add_sub_cancel_left]
  obtain ⟨st3, evs3, hrun3, hpair3, hp3⟩ :=
    runChunks_sim env sld hex hres hcpy S (hdr.getD 3 0) hDge hD32 rest st2 mo2
      ([] ++ evs1) hinv2
      (by
        rcases hpos2 with h | h
        · exact Or.inl h
        · right
          rw [h]
          simp only [modePos]
          rw [Nat.zero_add, List.length_drop]
          exact hrestj)
  refine ⟨st3, evs1 ++ evs3, ?_, ?_, ?_⟩
  · rw [hstep, hrun3]
    simp
  · rw [freshPairs_append, hpair3, hpair2]
    simp only [remPairs]
    rw [List.drop_zero, Nat.sub_zero]
  · rw [hp3, hp2]
    simp only [remP]
    rw [List.drop_zero, Nat.sub_zero, Nat.zero_add]

theorem c1_fragmentation_invariance_witness :
    (∀ c, idEnv.execute c = (XST_SUCCESS, c)) ∧ WfCmds [65537, 42, XPLMI_CMD_END] ∧
      ∃ st2 evs,
        XPlmi_RunChunks idEnv false XPlmi_InitCdo
          [[0, XPLMI_CDO_HDR_IDN_WRD, 0, 3, 4289772473, 65537], [42, XPLMI_CMD_END]] [] =
          some (XST_SUCCESS, st2, evs) ∧
        freshPairs evs = [(65537, 1)] ∧ st2.ProcessedCdoLen = 2 := by
  have hwf : WfCmds [65537, 42, XPLMI_CMD_END] :=
    WfCmds.more _ (by decide) (by decide) (by decide) (by decide)
      (WfCmds.end_word _ (by decide) (by decide))
  refine ⟨fun c => rfl, hwf, ?_⟩
  obtain ⟨st2, evs, h1, h2, h3⟩ := c1_fragmentation_invariance idEnv false
    [0, XPLMI_CDO_HDR_IDN_WRD, 0, 3, 4289772473] [65537, 42, XPLMI_CMD_END]
    [0, XPLMI_CDO_HDR_IDN_WRD, 0, 3, 4289772473, 65537] [[42, XPLMI_CMD_END]]
    (fun c => rfl) (fun c => rfl) rfl hwf (by decide) (by decide) (by decide) (by decide)
    (by decide) (by decide) (by decide) (by decide)
  refine ⟨st2, evs, h1, ?_, ?_⟩
  · rw [h2]
    decide
  · rw [h3]
    decide

end XPlmi
